import Mathlib

/-!
# tmppg: an ephemeral PostgreSQL server around a workload

A shallow embedding of `tmppg.go` (`WithPostgresql`, `RunWithPostgresql`) and of
`cmd/wrapper/main.go` (`main`).

The program is effectful.  It is embedded as a pure function of a `World`: a record
that fixes the result of every external call the program makes (`os.MkdirTemp`,
`cmd.Run`, `cmd.Start`, `cmd.Wait`, `Process.Signal`, `os.RemoveAll`) and the
interleaving of the exit-monitor goroutine with the readiness loop.  A run yields the
list of effects in program order (`Event`) and an `Outcome`.  Every external call is
taken to return; the readiness loop is the only unbounded part and is driven by fuel.
-/

namespace Tmppg

/-! ## Go error values -/

/-- Non-nil Go error values, as far as the program distinguishes them.  A Go value of
type `error` is an `Option GoErr`, with `nil` being `none`. -/
inductive GoErr where
  /-- An `*exec.ExitError`, with its `ExitCode()` and its `Error()` text. -/
  | exitError (code : Int) (text : String)
  /-- Any error that neither is nor wraps an `*exec.ExitError`. -/
  | other (text : String)
  /-- The value of `fmt.Errorf(pre + ": %w", cause)` for a non-nil cause. -/
  | wrapW (pre : String) (cause : GoErr)
  /-- The value of `fmt.Errorf(pre + ": %w", nil)`. -/
  | wrapNil (pre : String)
  /-- The value of `fmt.Errorf` with `%v` verbs only: a plain error carrying its text. -/
  | errorfV (text : String)
  deriving DecidableEq, Repr

/-- The `Error()` text of an error. -/
def GoErr.text : GoErr → String
  | .exitError _ t => t
  | .other t => t
  | .wrapW pre cause => pre ++ ": " ++ cause.text
  | .wrapNil pre => pre ++ ": %!w(<nil>)"
  | .errorfV t => t

/-- The call `fmt.Errorf(pre + ": %w", err)` for a possibly nil `err`; the result is
never nil. -/
def errorfW (pre : String) : Option GoErr → GoErr
  | some e => .wrapW pre e
  | none => .wrapNil pre

/-- The call `errors.As(err, &exitErr)` followed by `exitErr.ExitCode()`: the exit code
of the first `*exec.ExitError` in the unwrap chain, if there is one. -/
def GoErr.asExitError : GoErr → Option Int
  | .exitError c _ => some c
  | .other _ => none
  | .wrapW _ cause => cause.asExitError
  | .wrapNil _ => none
  | .errorfV _ => none

/-- What `cmd.Run()` returns for a command that was launched and exited with status
`c`: nil for status 0, an `*exec.ExitError` carrying the status otherwise. -/
def exitStatus (c : Int) : Option GoErr :=
  if c = 0 then none else some (.exitError c ("exit status " ++ toString c))

/-! ## pg_isready exit codes -/

def pqPingReject : Int := 1

def pqPingNoResponse : Int := 2

def pqPingNoAttempt : Int := 3

/-! ## Effects -/

inductive Level where
  | debug
  | info
  | error
  deriving DecidableEq, Repr

/-- Effects performed inside the caller-supplied function. -/
inductive Effect where
  /-- The command `exec.Command(name, arg...)` was run, and `env` is the environment its
  process was started with (what `os/exec` makes of `Cmd.Env`). -/
  | exec (name : String) (arg : List String) (env : List String)
  deriving DecidableEq, Repr

/-- Effects of `WithPostgresql` and `main`, in program order. -/
inductive Event where
  /-- The call `os.MkdirTemp("", "tmppg")`. -/
  | mkdirTemp
  /-- A `cmd.Run()` of a command built by `makeCmd`. -/
  | run (args : List String)
  /-- The call `pgCmd.Start()`. -/
  | start (args : List String)
  /-- The exit-monitor goroutine is spawned. -/
  | goMonitor
  /-- The readiness loop's `select` took the `<-exitErrCh` case and received `err`. -/
  | exitObserved (err : Option GoErr)
  /-- The readiness loop's `select` took the `<-time.After(100ms)` case. -/
  | delayElapsed
  /-- The call `fn(dir)`, with the effects it performed. -/
  | fn (dir : String) (effects : List Effect)
  /-- The call `pgCmd.Process.Signal(syscall.SIGTERM)`. -/
  | signalTerm
  /-- The deferred `err = <-exitErrCh` completed, having received `err`. -/
  | awaitedExit (err : Option GoErr)
  /-- The call `os.RemoveAll(dir)`. -/
  | removeAll (dir : String)
  /-- A `slog` record. -/
  | log (level : Level) (msg : String)
  deriving DecidableEq, Repr

/-! ## The exit-notification channel and its monitor goroutine -/

/-- A Go channel of `error`: capacity, buffered values (oldest first), closed flag. -/
structure Chan where
  cap : Nat
  buf : List (Option GoErr)
  closed : Bool
  deriving DecidableEq, Repr

/-- The expression `make(chan error, cap)`. -/
def Chan.make (cap : Nat) : Chan := ⟨cap, [], false⟩

/-- A send that can proceed without a waiting receiver: `none` when the buffer is full
(the sender would park). -/
def Chan.send (c : Chan) (v : Option GoErr) : Option Chan :=
  if c.buf.length < c.cap then some { c with buf := c.buf ++ [v] } else none

/-- The call `close(c)`. -/
def Chan.close (c : Chan) : Chan := { c with closed := true }

/-- A receive that can proceed at once: the oldest buffered value, or the zero value
(nil) from a closed and drained channel; `none` when the receiver would park. -/
def Chan.recv (c : Chan) : Option (Option GoErr × Chan) :=
  match c.buf with
  | v :: rest => some (v, { c with buf := rest })
  | [] => if c.closed then some (none, c) else none

/-- Where the goroutine `exitErrCh <- pgCmd.Wait(); close(exitErrCh)` stands: still in
`Wait` (or in the send), after the send, or after the close. -/
inductive Monitor where
  | waiting
  | sent
  | closed
  deriving DecidableEq, Repr

/-- The state shared by the main goroutine and the monitor. -/
structure Conc where
  mon : Monitor
  ch : Chan
  deriving DecidableEq, Repr

/-- One step of the monitor goroutine, once `pgCmd.Wait()` has returned `wait`. -/
def monitorStep (wait : Option GoErr) (s : Conc) : Conc :=
  match s.mon with
  | .waiting =>
    match s.ch.send wait with
    | some c => ⟨.sent, c⟩
    | none => s
  | .sent => ⟨.closed, s.ch.close⟩
  | .closed => s

/-- The monitor takes `n` steps. -/
def monitorRun (wait : Option GoErr) : Nat → Conc → Conc
  | 0, s => s
  | n + 1, s => monitorRun wait n (monitorStep wait s)

/-- A blocking receive by the main goroutine: while the channel is not ready the main
goroutine is parked and only the monitor can run.  The monitor has two steps, so three
attempts decide; `none` means that nothing can wake the receiver any more. -/
def recvBlocking (wait : Option GoErr) : Nat → Conc → Option (Option GoErr × Conc)
  | 0, _ => none
  | n + 1, s =>
    match s.ch.recv with
    | some (v, c) => some (v, { s with ch := c })
    | none => recvBlocking wait n (monitorStep wait s)

/-- The shared state right after the monitor is spawned: `make(chan error, 1)`, the
monitor still in `Wait`. -/
def conc0 : Conc := ⟨.waiting, Chan.make 1⟩

/-! ## The world -/

/-- How the caller-supplied function ends. -/
inductive FnOutcome where
  | returned (err : Option GoErr)
  | panicked
  deriving DecidableEq, Repr

structure FnResult where
  effects : List Effect
  outcome : FnOutcome
  deriving DecidableEq, Repr

/-- The results of the external calls and the scheduling seen by one invocation. -/
structure World where
  /-- Result of `os.MkdirTemp("", "tmppg")`. -/
  mkdirTemp : Except GoErr String
  /-- Result of the `initdb` command's `Run()`. -/
  initdb : Option GoErr
  /-- Result of `pgCmd.Start()`. -/
  start : Option GoErr
  /-- Result of `pgCmd.Wait()`, whenever the server exits. -/
  wait : Option GoErr
  /-- Number of steps the monitor goroutine takes (the server having exited) while the
  `select` of loop iteration `i` waits; 0 while the server is running. -/
  monitorProgress : Nat → Nat
  /-- Result of the `pg_isready` command's `Run()` in loop iteration `i`. -/
  probe : Nat → Option GoErr
  /-- Result of `pgCmd.Process.Signal(syscall.SIGTERM)`. -/
  signal : Option GoErr
  /-- Result of `os.RemoveAll(dir)`. -/
  removeAll : Option GoErr
  /-- Result of `os.Environ()`: the entries of the process environment, as the operating
  system holds them (so without NUL characters). -/
  environ : List String
  /-- Result of `Run()` of the wrapped command with the given `Args` (the command name
  followed by its arguments), its process being started with the given environment. -/
  command : List String → List String → Option GoErr

/-- How an invocation ends. -/
inductive Outcome where
  /-- The function returned this error value. -/
  | returned (err : Option GoErr)
  /-- A panic raised by `fn` propagates after the deferred functions ran. -/
  | panicked
  /-- The deferred receive on `exitErrCh` can never complete. -/
  | deadlock
  /-- The readiness loop was still running when the fuel ran out. -/
  | polling
  deriving DecidableEq, Repr

def FnOutcome.toOutcome : FnOutcome → Outcome
  | .returned err => .returned err
  | .panicked => .panicked

structure Run where
  trace : List Event
  outcome : Outcome
  deriving DecidableEq, Repr

/-! ## WithPostgresql -/

def initdbArgs (dir : String) : List String :=
  ["initdb", "-D", dir, "--no-sync", "--no-instructions"]

def postgresArgs (dir : String) : List String :=
  ["postgres", "-D", dir, "--listen_addresses=", "--unix_socket_directories=" ++ dir,
    "--fsync=off", "--synchronous_commit=off", "--full_page_writes=off"]

def pgIsreadyArgs (dir : String) : List String :=
  ["pg_isready", "-q", "-h", dir, "-d", "postgres"]

/-- How the readiness loop is left. -/
inductive LoopExit where
  /-- By `break`: the probe returned nil. -/
  | ready
  /-- By `return` of this error. -/
  | failed (err : GoErr)
  /-- Not yet: the fuel ran out. -/
  | unfinished
  deriving DecidableEq, Repr

/-- The readiness loop, lines 111 to 130, from iteration `i` on, for at most `fuel`
iterations. -/
def pollLoop (w : World) (dir : String) : Nat → Nat → Conc → List Event × LoopExit × Conc
  | 0, _, s => ([], .unfinished, s)
  | fuel + 1, i, s =>
    let s1 := monitorRun w.wait (w.monitorProgress i) s
    match s1.ch.recv with
    | some (err, c) =>
      ([.exitObserved err], .failed (errorfW "postgres exited unexpectedly" err), { s1 with ch := c })
    | none =>
      match w.probe i with
      | none => ([.delayElapsed, .run (pgIsreadyArgs dir)], .ready, s1)
      | some err =>
        match err.asExitError with
        | some code =>
          if code = pqPingReject ∨ code = pqPingNoResponse then
            let r := pollLoop w dir fuel (i + 1) s1
            ([.delayElapsed, .run (pgIsreadyArgs dir),
                .log .info "waiting for PostgreSQL to be ready"] ++ r.1, r.2)
          else
            ([.delayElapsed, .run (pgIsreadyArgs dir)], .failed (.wrapW "pg_isready" err), s1)
        | none =>
          let r := pollLoop w dir fuel (i + 1) s1
          ([.delayElapsed, .run (pgIsreadyArgs dir)] ++ r.1, r.2)

/-- The first deferred function, lines 74 to 78. -/
def removeDir (w : World) (dir : String) : List Event :=
  match w.removeAll with
  | some _ => [.removeAll dir, .log .error "failed to remove temporary directory"]
  | none => [.removeAll dir]

/-- The log record of the deferred shutdown for the received exit value, lines 103 to
108. -/
def exitLog : Option GoErr → List Event
  | none => []
  | some err =>
    match err.asExitError with
    | some _ => [.log .error "postgres exited with error"]
    | none => [.log .error "failed to wait for postgres to exit"]

/-- The second deferred function, lines 97 to 109.  The flag tells whether it ran to
its end. -/
def shutdown (w : World) (s : Conc) : List Event × Bool :=
  let sig : List Event :=
    match w.signal with
    | some _ => [.signalTerm, .log .error "failed to send SIGTERM to postgres"]
    | none => [.signalTerm]
  match recvBlocking w.wait 3 s with
  | none => (sig, false)
  | some (err, _) => (sig ++ [.awaitedExit err] ++ exitLog err, true)

/-- Leaving the function body after both defers are registered: the deferred functions
run last-registered first, then the outcome of the body stands. -/
def finish (w : World) (dir : String) (body : List Event) (s : Conc) (out : Outcome) : Run :=
  match shutdown w s with
  | (tr, true) => ⟨body ++ tr ++ removeDir w dir, out⟩
  | (tr, false) => ⟨body ++ tr, .deadlock⟩

def WithPostgresql (w : World) (fn : String → FnResult) (fuel : Nat) : Run :=
  match w.mkdirTemp with
  | .error e => ⟨[.mkdirTemp], .returned (some (.wrapW "setup temporary directory" e))⟩
  | .ok dir =>
    match w.initdb with
    | some e =>
      ⟨[.mkdirTemp, .run (initdbArgs dir), .log .debug "initdb failed with arguments"]
          ++ removeDir w dir,
        .returned (some (.wrapW "initdb" e))⟩
    | none =>
      match w.start with
      | some e =>
        ⟨[.mkdirTemp, .run (initdbArgs dir), .start (postgresArgs dir),
            .log .debug "postgres failed with arguments"] ++ removeDir w dir,
          .returned (some (.wrapW "start postgres" e))⟩
      | none =>
        let pre : List Event :=
          [.mkdirTemp, .run (initdbArgs dir), .start (postgresArgs dir), .goMonitor]
        match pollLoop w dir fuel 0 conc0 with
        | (tr, .unfinished, _) => ⟨pre ++ tr, .polling⟩
        | (tr, .failed e, s) => finish w dir (pre ++ tr) s (.returned (some e))
        | (tr, .ready, s) =>
          let r := fn dir
          finish w dir (pre ++ tr ++ [.fn dir r.effects]) s r.outcome.toOutcome

/-! ## RunWithPostgresql -/

/-- The text of a `[]string` under the `%v` verb. -/
def fmtArgs (args : List String) : String :=
  "[" ++ " ".intercalate args ++ "]"

/-- The key of an environment entry as `os/exec` takes it in `dedupEnv`: the text before
the first `=`, where an `=` at the very start counts as part of the key; `none` for an
entry without `=`. -/
def envKey (kv : String) : Option String :=
  match kv.data with
  | '=' :: rest =>
    if '=' ∈ rest then some ⟨'=' :: rest.takeWhile (fun c => c ≠ '=')⟩ else some ""
  | cs => if '=' ∈ cs then some ⟨cs.takeWhile (fun c => c ≠ '=')⟩ else none

/-- The loop of `dedupEnv` of `os/exec`: it visits the entries from the last to the
first (the argument is the reversed list) with the keys seen so far, drops an entry
whose key was seen and an empty entry, and keeps the others in the order visited. -/
def dedupEnvRev : List String → List String → List String
  | [], _ => []
  | kv :: rest, saw =>
    match envKey kv with
    | none => if kv = "" then dedupEnvRev rest saw else kv :: dedupEnvRev rest saw
    | some k => if k ∈ saw then dedupEnvRev rest saw else kv :: dedupEnvRev rest (k :: saw)

/-- What `os/exec` makes of a non-nil `Cmd.Env` when the command is started (`dedupEnv`,
outside Windows and Plan 9, for a command without `Dir`): of the entries with the same
key only the last is kept, the order of the kept entries is unchanged.  Its check for
NUL characters is left out: no entry of `os.Environ()` and no path returned by
`os.MkdirTemp` has one. -/
def dedupEnv (env : List String) : List String :=
  (dedupEnvRev env.reverse []).reverse

/-- The function literal passed to `WithPostgresql` by `RunWithPostgresql`, lines 139
to 148.  `wrapped.Env` is `append(os.Environ(), "PGHOST="+socketDir)`; `wrapped.Run()`
starts the process with `dedupEnv` of it. -/
def runCommand (w : World) (args : List String) (socketDir : String) : FnResult :=
  match args with
  | [] => ⟨[], .panicked⟩
  | name :: rest =>
    let wrappedArgs := [name] ++ rest
    let wrappedEnv := w.environ ++ ["PGHOST=" ++ socketDir]
    match w.command wrappedArgs (dedupEnv wrappedEnv) with
    | some err =>
      ⟨[.exec name rest (dedupEnv wrappedEnv)],
        .returned (some (.errorfV (fmtArgs wrappedArgs ++ ": " ++ err.text)))⟩
    | none => ⟨[.exec name rest (dedupEnv wrappedEnv)], .returned none⟩

def RunWithPostgresql (w : World) (args : List String) (fuel : Nat) : Run :=
  WithPostgresql w (runCommand w args) fuel

/-! ## The wrapper command -/

/-- How the process of `main` ends. -/
inductive Exit where
  /-- By `os.Exit(code)`, or by returning from `main` (code 0). -/
  | code (n : Nat)
  /-- By an unrecovered panic. -/
  | crash
  /-- Not at all. -/
  | hang
  deriving DecidableEq, Repr

def main (w : World) (osArgs : List String) (fuel : Nat) : List Event × Exit :=
  if osArgs.length < 3 ∨ osArgs[1]? ≠ some "--" then
    ([.log .error "usage: tmppg -- command [args...]"], .code 1)
  else
    let args := osArgs.drop 2
    let r := RunWithPostgresql w args fuel
    match r.outcome with
    | .returned (some _) => (r.trace ++ [.log .error "uncaught error"], .code 1)
    | .returned none => (r.trace, .code 0)
    | .panicked => (r.trace, .crash)
    | .deadlock => (r.trace, .hang)
    | .polling => (r.trace, .hang)

/-! ## Vocabulary of the statements -/

/-- The three teardown effects. -/
def Event.isTeardown : Event → Bool
  | .signalTerm => true
  | .awaitedExit _ => true
  | .removeAll _ => true
  | _ => false

/-- The call of the caller-supplied function. -/
def Event.isFn : Event → Bool
  | .fn _ _ => true
  | _ => false

/-- A call of `os.RemoveAll`. -/
def Event.isRemoveAll : Event → Bool
  | .removeAll _ => true
  | _ => false

/-- A run of the `pg_isready` command. -/
def Event.isProbe : Event → Bool
  | .run args => decide (args.head? = some "pg_isready")
  | _ => false

/-- A receive of the exit value by the readiness loop. -/
def Event.isExitObserved : Event → Bool
  | .exitObserved _ => true
  | _ => false

/-- A log record. -/
def Event.isLog : Event → Bool
  | .log _ _ => true
  | _ => false

/-- The effects the readiness loop itself can have. -/
def Event.inLoop (dir : String) (e : Event) : Prop :=
  e = .delayElapsed ∨ e = .run (pgIsreadyArgs dir) ∨
    e = .log .info "waiting for PostgreSQL to be ready" ∨ ∃ v, e = .exitObserved v

/-- The monitor has sent and the value was received; the close is still to come. -/
def concSentDrained : Conc := ⟨.sent, ⟨1, [], false⟩⟩

/-- The monitor has sent and closed, and the value was received. -/
def concClosedDrained : Conc := ⟨.closed, ⟨1, [], true⟩⟩

/-- The signalling part of the deferred shutdown. -/
def signalTrace (w : World) : List Event :=
  match w.signal with
  | some _ => [.signalTerm, .log .error "failed to send SIGTERM to postgres"]
  | none => [.signalTerm]

/-- The effects up to and including the spawning of the monitor. -/
def startTrace (dir : String) : List Event :=
  [.mkdirTemp, .run (initdbArgs dir), .start (postgresArgs dir), .goMonitor]

/-- The teardown effects when the loop did not receive the exit value. -/
def teardownTrace (w : World) (dir : String) : List Event :=
  signalTrace w ++ [.awaitedExit w.wait] ++ exitLog w.wait ++ removeDir w dir

/-- The teardown effects when the loop received the exit value. -/
def teardownTraceDrained (w : World) (dir : String) : List Event :=
  signalTrace w ++ [.awaitedExit none] ++ removeDir w dir

/-- Iteration `i` of the readiness loop leads to iteration `i + 1`: the exit signal is
not available and the probe did not succeed, and either did not end with an exit status
or ended with one of the two transient ones. -/
def continues (w : World) (i : Nat) : Prop :=
  w.monitorProgress i = 0 ∧
    ∃ e, w.probe i = some e ∧
      (e.asExitError = none ∨ e.asExitError = some pqPingReject ∨
        e.asExitError = some pqPingNoResponse)

/-- Iteration `i` of the readiness loop sees the server running and the probe end with
the rejecting or the no-response status. -/
def transient (w : World) (i : Nat) : Prop :=
  w.monitorProgress i = 0 ∧
    ∃ e, w.probe i = some e ∧
      (e.asExitError = some pqPingReject ∨ e.asExitError = some pqPingNoResponse)

/-! ## Sample worlds and workloads -/

/-- A world in which everything works, the server runs until it is told to stop, and
the readiness probes end with the given exit statuses in turn (status 0 once the list
is used up). -/
def scripted (codes : List Int) : World where
  mkdirTemp := .ok "/tmp/tmppg1"
  initdb := none
  start := none
  wait := none
  monitorProgress := fun _ => 0
  probe := fun i => exitStatus (codes.getD i 0)
  signal := none
  removeAll := none
  environ := ["HOME=/root"]
  command := fun _ _ => none

/-- A world whose server exits with status 1 while the third iteration of the loop
waits, after two probes without response. -/
def crashesEarly : World :=
  { scripted [2, 2, 2, 2, 2] with
    wait := exitStatus 1
    monitorProgress := fun i => if i = 2 then 1 else 0 }

/-- A world in which `initdb` exits with status 1. -/
def initdbFails : World :=
  { scripted [] with initdb := exitStatus 1 }

/-- A world in which the scratch directory cannot be created. -/
def mkdirFails : World :=
  { scripted [] with mkdirTemp := .error (.other "mkdir /tmp/tmppg1: no space left on device") }

/-- A world whose wrapped command exits with status 1. -/
def commandFails : World :=
  { scripted [] with command := fun _ _ => exitStatus 1 }

/-- A world in which `pg_isready` can never be launched. -/
def probeMissing : World :=
  { scripted [] with
    probe := fun _ => some (.other "exec: pg_isready: executable file not found in $PATH") }

/-- A world in which `pg_isready` cannot be launched the first time and succeeds the
second time. -/
def probeMissingOnce : World :=
  { scripted [] with
    probe := fun i =>
      if i = 0 then some (.other "fork/exec /usr/bin/pg_isready: resource temporarily unavailable")
      else none }

/-- A world whose server, told to stop, exits with status 1, and in which the SIGTERM
is reported as not delivered; the third probe is the first to succeed. -/
def stopsWithError : World :=
  { scripted [2, 2] with
    wait := exitStatus 1
    signal := some (.other "os: process already finished") }

/-- A world whose ambient environment already has a `PGHOST` entry. -/
def ambientPghost : World :=
  { scripted [] with environ := ["HOME=/root", "PGHOST=/elsewhere", "LANG=C"] }

/-- A teardown in which every step fails. -/
def teardownFails (w : World) : World :=
  { w with
    signal := some (.other "os: process already finished")
    removeAll := some (.other "unlinkat: permission denied")
    wait := exitStatus 1 }

/-- A sample workload that succeeds without effects. -/
def fnOk (_ : String) : FnResult := ⟨[], .returned none⟩

/-- A sample workload that fails without effects. -/
def fnFails (_ : String) : FnResult := ⟨[], .returned (some (.other "workload failed"))⟩

/-! ## Theorems -/

theorem monitorRun_closed (wait : Option GoErr) (n : Nat) (c : Chan) :
    monitorRun wait n ⟨.closed, c⟩ = ⟨.closed, c⟩ := by
  induction n with
  | zero => rfl
  | succ n ih => simpa [monitorRun, monitorStep] using ih

theorem monitorRun_conc0_two (wait : Option GoErr) (n : Nat) :
    monitorRun wait (n + 2) conc0 = ⟨.closed, ⟨1, [wait], true⟩⟩ := by
  show monitorRun wait n ⟨.closed, ⟨1, [wait], true⟩⟩ = _
  exact monitorRun_closed wait n _

theorem recvBlocking_conc0 (wait : Option GoErr) :
    recvBlocking wait 3 conc0 = some (wait, concSentDrained) := rfl

theorem recvBlocking_sentDrained (wait : Option GoErr) :
    recvBlocking wait 3 concSentDrained = some (none, concClosedDrained) := rfl

theorem recvBlocking_closedDrained (wait : Option GoErr) :
    recvBlocking wait 3 concClosedDrained = some (none, concClosedDrained) := rfl

theorem pollLoop_events (w : World) (dir : String) :
    ∀ (fuel i : Nat) (s : Conc) (e : Event), e ∈ (pollLoop w dir fuel i s).1 → e.inLoop dir := by
  intro fuel
  induction fuel with
  | zero => intro i s e h; simp [pollLoop] at h
  | succ n ih =>
    intro i s e h
    rw [pollLoop] at h
    simp only at h
    split at h
    · simp at h
      exact Or.inr (Or.inr (Or.inr ⟨_, h⟩))
    · split at h
      · simp at h
        rcases h with h | h
        · exact Or.inl h
        · exact Or.inr (Or.inl h)
      · split at h
        · split at h
          · simp at h
            rcases h with h | h | h | h
            · exact Or.inl h
            · exact Or.inr (Or.inl h)
            · exact Or.inr (Or.inr (Or.inl h))
            · exact ih _ _ _ h
          · simp at h
            rcases h with h | h
            · exact Or.inl h
            · exact Or.inr (Or.inl h)
        · simp at h
          rcases h with h | h | h
          · exact Or.inl h
          · exact Or.inr (Or.inl h)
          · exact ih _ _ _ h

/-- What the readiness loop hands to the teardown, in a state the monitor left alone
until an exit was seen: either the channel is untouched and no exit was received, or
the loop received the one value `Wait` produced and returns the unexpected-exit
error. -/
theorem pollLoop_cases (w : World) (dir : String) :
    ∀ (fuel i : Nat),
      ((pollLoop w dir fuel i conc0).2.2 = conc0 ∧
        (∀ v, Event.exitObserved v ∉ (pollLoop w dir fuel i conc0).1) ∧
        ((pollLoop w dir fuel i conc0).2.1 = .unfinished ∨
          (pollLoop w dir fuel i conc0).2.1 = .ready ∨
          ∃ e, (pollLoop w dir fuel i conc0).2.1 = .failed (.wrapW "pg_isready" e))) ∨
      ((pollLoop w dir fuel i conc0).2.1 =
          .failed (errorfW "postgres exited unexpectedly" w.wait) ∧
        ((pollLoop w dir fuel i conc0).2.2 = concSentDrained ∨
          (pollLoop w dir fuel i conc0).2.2 = concClosedDrained) ∧
        Event.exitObserved w.wait ∈ (pollLoop w dir fuel i conc0).1) := by
  intro fuel
  induction fuel with
  | zero => intro i; left; simp [pollLoop]
  | succ n ih =>
    intro i
    rw [pollLoop]
    simp only
    rcases hm : w.monitorProgress i with _ | _ | m
    · have h0 : (monitorRun w.wait 0 conc0) = conc0 := rfl
      have hr : conc0.ch.recv = none := rfl
      rw [h0, hr]
      simp only
      rcases hp : w.probe i with _ | err
      · left; simp
      · simp only
        rcases hc : err.asExitError with _ | code
        · simp only
          rcases ih (i + 1) with ⟨h1, h2, h3⟩ | ⟨h1, h2, h3⟩
          · left
            refine ⟨h1, ?_, h3⟩
            intro v hv
            simp at hv
            exact h2 v hv
          · right
            refine ⟨h1, h2, ?_⟩
            simp [h3]
        · simp only
          split
          · rcases ih (i + 1) with ⟨h1, h2, h3⟩ | ⟨h1, h2, h3⟩
            · left
              refine ⟨h1, ?_, h3⟩
              intro v hv
              simp at hv
              exact h2 v hv
            · right
              refine ⟨h1, h2, ?_⟩
              simp [h3]
          · left; simp
    · right
      have h1 : (monitorRun w.wait (0 + 1) conc0) = ⟨.sent, ⟨1, [w.wait], false⟩⟩ := rfl
      rw [h1]
      simp [Chan.recv, concSentDrained]
    · right
      rw [monitorRun_conc0_two]
      simp [Chan.recv, concClosedDrained]

theorem shutdown_conc0 (w : World) :
    shutdown w conc0 = (signalTrace w ++ [.awaitedExit w.wait] ++ exitLog w.wait, true) := by
  simp only [shutdown, recvBlocking_conc0, signalTrace]

theorem shutdown_sentDrained (w : World) :
    shutdown w concSentDrained = (signalTrace w ++ [.awaitedExit none], true) := by
  simp [shutdown, recvBlocking_sentDrained, signalTrace, exitLog]

theorem shutdown_closedDrained (w : World) :
    shutdown w concClosedDrained = (signalTrace w ++ [.awaitedExit none], true) := by
  simp [shutdown, recvBlocking_closedDrained, signalTrace, exitLog]

theorem filter_isTeardown_signalTrace (w : World) :
    (signalTrace w).filter Event.isTeardown = [.signalTerm] := by
  unfold signalTrace; cases w.signal <;> rfl

theorem filter_isTeardown_exitLog (v : Option GoErr) :
    (exitLog v).filter Event.isTeardown = [] := by
  cases v with
  | none => rfl
  | some e => simp only [exitLog]; split <;> rfl

theorem filter_isTeardown_removeDir (w : World) (dir : String) :
    (removeDir w dir).filter Event.isTeardown = [.removeAll dir] := by
  unfold removeDir; cases w.removeAll <;> rfl

theorem filter_isRemoveAll_removeDir (w : World) (dir : String) :
    (removeDir w dir).filter Event.isRemoveAll = [.removeAll dir] := by
  unfold removeDir; cases w.removeAll <;> rfl

theorem WithPostgresql_started (w : World) (fn : String → FnResult) (fuel : Nat) (dir : String)
    (hdir : w.mkdirTemp = .ok dir) (hinit : w.initdb = none) (hstart : w.start = none) :
    WithPostgresql w fn fuel =
      match pollLoop w dir fuel 0 conc0 with
      | (tr, .unfinished, _) => ⟨startTrace dir ++ tr, .polling⟩
      | (tr, .failed e, s) => finish w dir (startTrace dir ++ tr) s (.returned (some e))
      | (tr, .ready, s) =>
        finish w dir (startTrace dir ++ tr ++ [.fn dir (fn dir).effects]) s
          (fn dir).outcome.toOutcome := by
  simp only [WithPostgresql, hdir, hinit, hstart, startTrace]

/-- The four ways a run with a started server can go. -/
theorem started_run (w : World) (fn : String → FnResult) (fuel : Nat) (dir : String)
    (hdir : w.mkdirTemp = .ok dir) (hinit : w.initdb = none) (hstart : w.start = none) :
    ((pollLoop w dir fuel 0 conc0).2.1 = .unfinished ∧
      WithPostgresql w fn fuel = ⟨startTrace dir ++ (pollLoop w dir fuel 0 conc0).1, .polling⟩) ∨
    ((pollLoop w dir fuel 0 conc0).2.1 = .ready ∧
      (∀ v, Event.exitObserved v ∉ (pollLoop w dir fuel 0 conc0).1) ∧
      WithPostgresql w fn fuel =
        ⟨startTrace dir ++ (pollLoop w dir fuel 0 conc0).1 ++ [.fn dir (fn dir).effects]
          ++ teardownTrace w dir, (fn dir).outcome.toOutcome⟩) ∨
    ((∃ e, (pollLoop w dir fuel 0 conc0).2.1 = .failed (.wrapW "pg_isready" e) ∧
      WithPostgresql w fn fuel =
        ⟨startTrace dir ++ (pollLoop w dir fuel 0 conc0).1 ++ teardownTrace w dir,
          .returned (some (.wrapW "pg_isready" e))⟩) ∧
      (∀ v, Event.exitObserved v ∉ (pollLoop w dir fuel 0 conc0).1)) ∨
    ((pollLoop w dir fuel 0 conc0).2.1 =
        .failed (errorfW "postgres exited unexpectedly" w.wait) ∧
      Event.exitObserved w.wait ∈ (pollLoop w dir fuel 0 conc0).1 ∧
      WithPostgresql w fn fuel =
        ⟨startTrace dir ++ (pollLoop w dir fuel 0 conc0).1 ++ teardownTraceDrained w dir,
          .returned (some (errorfW "postgres exited unexpectedly" w.wait))⟩) := by
  rw [WithPostgresql_started w fn fuel dir hdir hinit hstart]
  rcases hp : pollLoop w dir fuel 0 conc0 with ⟨tr, r, s⟩
  have hc := pollLoop_cases w dir fuel 0
  rw [hp] at hc
  simp only at hc
  rcases hc with ⟨hs, hno, hr | hr | ⟨e, hr⟩⟩ | ⟨hr, hs | hs, hex⟩
  · left; subst hr; simp
  · right; left; subst hr; subst hs
    simp [finish, shutdown_conc0, teardownTrace, hno]
  · right; right; left; subst hr; subst hs
    simp [finish, shutdown_conc0, teardownTrace, hno]
  · right; right; right; subst hr; subst hs
    simp [finish, shutdown_sentDrained, teardownTraceDrained, hex]
  · right; right; right; subst hr; subst hs
    simp [finish, shutdown_closedDrained, teardownTraceDrained, hex]

theorem inLoop_isTeardown {dir : String} {e : Event} (h : e.inLoop dir) : e.isTeardown = false := by
  rcases h with h | h | h | ⟨v, h⟩ <;> subst h <;> rfl

theorem inLoop_isFn {dir : String} {e : Event} (h : e.inLoop dir) : e.isFn = false := by
  rcases h with h | h | h | ⟨v, h⟩ <;> subst h <;> rfl

theorem inLoop_isRemoveAll {dir : String} {e : Event} (h : e.inLoop dir) :
    e.isRemoveAll = false := by
  rcases h with h | h | h | ⟨v, h⟩ <;> subst h <;> rfl

theorem filter_isTeardown_pollLoop (w : World) (dir : String) (fuel i : Nat) (s : Conc) :
    (pollLoop w dir fuel i s).1.filter Event.isTeardown = [] := by
  rw [List.filter_eq_nil_iff]
  intro e he
  simp [inLoop_isTeardown (pollLoop_events w dir fuel i s e he)]

theorem filter_isFn_pollLoop (w : World) (dir : String) (fuel i : Nat) (s : Conc) :
    (pollLoop w dir fuel i s).1.filter Event.isFn = [] := by
  rw [List.filter_eq_nil_iff]
  intro e he
  simp [inLoop_isFn (pollLoop_events w dir fuel i s e he)]

theorem filter_isRemoveAll_pollLoop (w : World) (dir : String) (fuel i : Nat) (s : Conc) :
    (pollLoop w dir fuel i s).1.filter Event.isRemoveAll = [] := by
  rw [List.filter_eq_nil_iff]
  intro e he
  simp [inLoop_isRemoveAll (pollLoop_events w dir fuel i s e he)]

theorem filter_isTeardown_teardownTrace (w : World) (dir : String) :
    (teardownTrace w dir).filter Event.isTeardown =
      [.signalTerm, .awaitedExit w.wait, .removeAll dir] := by
  simp [teardownTrace, List.filter_append, filter_isTeardown_signalTrace,
    filter_isTeardown_exitLog, filter_isTeardown_removeDir, Event.isTeardown]

theorem filter_isTeardown_teardownTraceDrained (w : World) (dir : String) :
    (teardownTraceDrained w dir).filter Event.isTeardown =
      [.signalTerm, .awaitedExit none, .removeAll dir] := by
  simp [teardownTraceDrained, List.filter_append, filter_isTeardown_signalTrace,
    filter_isTeardown_removeDir, Event.isTeardown]

theorem filter_isRemoveAll_signalTrace (w : World) :
    (signalTrace w).filter Event.isRemoveAll = [] := by
  unfold signalTrace; cases w.signal <;> rfl

theorem filter_isRemoveAll_exitLog (v : Option GoErr) :
    (exitLog v).filter Event.isRemoveAll = [] := by
  cases v with
  | none => rfl
  | some e => simp only [exitLog]; split <;> rfl

theorem filter_isRemoveAll_teardownTrace (w : World) (dir : String) :
    (teardownTrace w dir).filter Event.isRemoveAll = [.removeAll dir] := by
  simp [teardownTrace, List.filter_append, filter_isRemoveAll_signalTrace,
    filter_isRemoveAll_exitLog, filter_isRemoveAll_removeDir, Event.isRemoveAll]

theorem filter_isRemoveAll_teardownTraceDrained (w : World) (dir : String) :
    (teardownTraceDrained w dir).filter Event.isRemoveAll = [.removeAll dir] := by
  simp [teardownTraceDrained, List.filter_append, filter_isRemoveAll_signalTrace,
    filter_isRemoveAll_removeDir, Event.isRemoveAll]

/-- The teardown effects of a run with a started server whose body has ended. -/
theorem teardown_events_started (w : World) (fn : String → FnResult) (fuel : Nat) (dir : String)
    (hdir : w.mkdirTemp = .ok dir) (hinit : w.initdb = none) (hstart : w.start = none)
    (hend : (WithPostgresql w fn fuel).outcome ≠ .polling) :
    ∃ v, (WithPostgresql w fn fuel).trace.filter Event.isTeardown =
      [.signalTerm, .awaitedExit v, .removeAll dir] := by
  rcases started_run w fn fuel dir hdir hinit hstart with
    ⟨_, h⟩ | ⟨_, _, h⟩ | ⟨⟨e, _, h⟩, _⟩ | ⟨_, _, h⟩
  · rw [h] at hend; exact absurd rfl hend
  · refine ⟨w.wait, ?_⟩
    rw [h]
    simp [List.filter_append, filter_isTeardown_pollLoop, filter_isTeardown_teardownTrace,
      startTrace, Event.isTeardown]
  · refine ⟨w.wait, ?_⟩
    rw [h]
    simp [List.filter_append, filter_isTeardown_pollLoop, filter_isTeardown_teardownTrace,
      startTrace, Event.isTeardown]
  · refine ⟨none, ?_⟩
    rw [h]
    simp [List.filter_append, filter_isTeardown_pollLoop,
      filter_isTeardown_teardownTraceDrained, startTrace, Event.isTeardown]

/-- Claim C2: the scratch directory is removed exactly when it was created, and once:
when `os.MkdirTemp` fails the run has no `RemoveAll`; when it returned `dir`, every run
whose body has ended has exactly one `RemoveAll`, of `dir`. -/
theorem removeAll_iff_created (w : World) (fn : String → FnResult) (fuel : Nat) :
    (∀ e, w.mkdirTemp = .error e →
      (WithPostgresql w fn fuel).trace.filter Event.isRemoveAll = []) ∧
    (∀ dir, w.mkdirTemp = .ok dir → (WithPostgresql w fn fuel).outcome ≠ .polling →
      (WithPostgresql w fn fuel).trace.filter Event.isRemoveAll = [.removeAll dir]) := by
  constructor
  · intro e he
    simp [WithPostgresql, he, Event.isRemoveAll]
  · intro dir hdir hend
    rcases hinit : w.initdb with _ | e
    · rcases hstart : w.start with _ | e
      · rcases started_run w fn fuel dir hdir hinit hstart with
          ⟨_, h⟩ | ⟨_, _, h⟩ | ⟨⟨e, _, h⟩, _⟩ | ⟨_, _, h⟩
        · rw [h] at hend; exact absurd rfl hend
        · rw [h]
          simp [List.filter_append, filter_isRemoveAll_pollLoop,
            filter_isRemoveAll_teardownTrace, startTrace, Event.isRemoveAll]
        · rw [h]
          simp [List.filter_append, filter_isRemoveAll_pollLoop,
            filter_isRemoveAll_teardownTrace, startTrace, Event.isRemoveAll]
        · rw [h]
          simp [List.filter_append, filter_isRemoveAll_pollLoop,
            filter_isRemoveAll_teardownTraceDrained, startTrace, Event.isRemoveAll]
      · simp [WithPostgresql, hdir, hinit, hstart, List.filter_append,
          filter_isRemoveAll_removeDir, Event.isRemoveAll]
    · simp [WithPostgresql, hdir, hinit, List.filter_append,
        filter_isRemoveAll_removeDir, Event.isRemoveAll]

theorem transient_continues {w : World} {i : Nat} (h : transient w i) : continues w i :=
  ⟨h.1, h.2.imp fun _ he => ⟨he.1, Or.inr he.2⟩⟩

theorem isProbe_pgIsready (dir : String) : (Event.run (pgIsreadyArgs dir)).isProbe = true := by
  simp [Event.isProbe, pgIsreadyArgs]

/-- One iteration that continues. -/
theorem pollLoop_continue (w : World) (dir : String) (fuel i : Nat) (h : continues w i) :
    ∃ pre, (∀ e ∈ pre, e.inLoop dir ∧ e.isFn = false ∧ ∀ v, e ≠ .exitObserved v) ∧
      (pre.filter Event.isProbe).length = 1 ∧
      pollLoop w dir (fuel + 1) i conc0 =
        (pre ++ (pollLoop w dir fuel (i + 1) conc0).1, (pollLoop w dir fuel (i + 1) conc0).2) := by
  obtain ⟨hm, e, hp, hc⟩ := h
  have h0 : monitorRun w.wait 0 conc0 = conc0 := rfl
  have hr : conc0.ch.recv = none := rfl
  rw [pollLoop]
  simp only [hm, h0, hr, hp]
  rcases hc with hc | hc | hc
  · refine ⟨[.delayElapsed, .run (pgIsreadyArgs dir)], ?_, ?_, ?_⟩
    · intro x hx
      simp at hx
      rcases hx with hx | hx <;> subst hx
      · exact ⟨Or.inl rfl, rfl, fun v => by simp⟩
      · exact ⟨Or.inr (Or.inl rfl), rfl, fun v => by simp⟩
    · simp [List.filter, Event.isProbe, pgIsreadyArgs]
    · simp [hc]
  · refine ⟨[.delayElapsed, .run (pgIsreadyArgs dir),
      .log .info "waiting for PostgreSQL to be ready"], ?_, ?_, ?_⟩
    · intro x hx
      simp at hx
      rcases hx with hx | hx | hx <;> subst hx
      · exact ⟨Or.inl rfl, rfl, fun v => by simp⟩
      · exact ⟨Or.inr (Or.inl rfl), rfl, fun v => by simp⟩
      · exact ⟨Or.inr (Or.inr (Or.inl rfl)), rfl, fun v => by simp⟩
    · simp [List.filter, Event.isProbe, pgIsreadyArgs]
    · simp [hc]
  · refine ⟨[.delayElapsed, .run (pgIsreadyArgs dir),
      .log .info "waiting for PostgreSQL to be ready"], ?_, ?_, ?_⟩
    · intro x hx
      simp at hx
      rcases hx with hx | hx | hx <;> subst hx
      · exact ⟨Or.inl rfl, rfl, fun v => by simp⟩
      · exact ⟨Or.inr (Or.inl rfl), rfl, fun v => by simp⟩
      · exact ⟨Or.inr (Or.inr (Or.inl rfl)), rfl, fun v => by simp⟩
    · simp [List.filter, Event.isProbe, pgIsreadyArgs]
    · simp [hc]

/-- If the iterations `i, ..., i + n - 1` all continue, the loop reaches iteration
`i + n` after exactly `n` probes. -/
theorem pollLoop_reach (w : World) (dir : String) (fuel : Nat) :
    ∀ (n i : Nat), (∀ j, j < n → continues w (i + j)) →
      ∃ pre, (∀ e ∈ pre, e.inLoop dir ∧ e.isFn = false ∧ ∀ v, e ≠ .exitObserved v) ∧
        (pre.filter Event.isProbe).length = n ∧
        pollLoop w dir (n + fuel) i conc0 =
          (pre ++ (pollLoop w dir fuel (i + n) conc0).1,
            (pollLoop w dir fuel (i + n) conc0).2) := by
  intro n
  induction n with
  | zero => intro i _; exact ⟨[], by simp, rfl, by simp⟩
  | succ n ih =>
    intro i h
    obtain ⟨pre1, h1, c1, e1⟩ := pollLoop_continue w dir (n + fuel) i (by simpa using h 0 (by omega))
    obtain ⟨pre2, h2, c2, e2⟩ := ih (i + 1) (fun j hj => by
      have := h (j + 1) (by omega)
      rwa [show i + (j + 1) = i + 1 + j by omega] at this)
    refine ⟨pre1 ++ pre2, ?_, ?_, ?_⟩
    · intro e he
      rcases List.mem_append.1 he with he | he
      · exact h1 e he
      · exact h2 e he
    · simp [List.filter_append, c1, c2]; omega
    · rw [show n + 1 + fuel = n + fuel + 1 by omega, e1, e2]
      simp [show i + 1 + n = i + (n + 1) by omega]

theorem run_of_ready (w : World) (fn : String → FnResult) (fuel : Nat) (dir : String)
    (hdir : w.mkdirTemp = .ok dir) (hinit : w.initdb = none) (hstart : w.start = none)
    (h : (pollLoop w dir fuel 0 conc0).2.1 = .ready) :
    WithPostgresql w fn fuel =
      ⟨startTrace dir ++ (pollLoop w dir fuel 0 conc0).1 ++ [.fn dir (fn dir).effects]
        ++ teardownTrace w dir, (fn dir).outcome.toOutcome⟩ := by
  rcases started_run w fn fuel dir hdir hinit hstart with
    ⟨h1, _⟩ | ⟨_, _, h2⟩ | ⟨⟨e, h1, _⟩, _⟩ | ⟨h1, _, _⟩
  · rw [h] at h1; cases h1
  · exact h2
  · rw [h] at h1; cases h1
  · rw [h] at h1; cases h1

theorem run_of_failed (w : World) (fn : String → FnResult) (fuel : Nat) (dir : String)
    (hdir : w.mkdirTemp = .ok dir) (hinit : w.initdb = none) (hstart : w.start = none)
    (err : GoErr) (h : (pollLoop w dir fuel 0 conc0).2.1 = .failed err) :
    (WithPostgresql w fn fuel).outcome = .returned (some err) ∧
      (WithPostgresql w fn fuel).trace.filter Event.isFn = [] ∧
      ∃ v, (WithPostgresql w fn fuel).trace.filter Event.isTeardown =
        [.signalTerm, .awaitedExit v, .removeAll dir] := by
  have ht := teardown_events_started w fn fuel dir hdir hinit hstart
  rcases started_run w fn fuel dir hdir hinit hstart with
    ⟨h1, _⟩ | ⟨h1, _, _⟩ | ⟨⟨e, h1, h2⟩, _⟩ | ⟨h1, _, h2⟩
  · rw [h] at h1; cases h1
  · rw [h] at h1; cases h1
  · rw [h] at h1
    injection h1 with h1
    subst h1
    refine ⟨by rw [h2], ?_, ht (by rw [h2]; simp)⟩
    rw [h2]
    simp [List.filter_append, filter_isFn_pollLoop, startTrace, Event.isFn, teardownTrace,
      signalTrace, exitLog, removeDir]
    refine ⟨?_, ?_, ?_⟩
    · cases w.signal <;> simp [Event.isFn]
    · cases w.wait with
      | none => simp
      | some x => simp only; split <;> simp [Event.isFn]
    · cases w.removeAll <;> simp [Event.isFn]
  · rw [h] at h1
    injection h1 with h1
    subst h1
    refine ⟨by rw [h2], ?_, ht (by rw [h2]; simp)⟩
    rw [h2]
    simp [List.filter_append, filter_isFn_pollLoop, startTrace, Event.isFn,
      teardownTraceDrained, signalTrace, removeDir]
    refine ⟨?_, ?_⟩
    · cases w.signal <;> simp [Event.isFn]
    · cases w.removeAll <;> simp [Event.isFn]

theorem teardownTrace_kinds (w : World) (dir : String) (e : Event)
    (h : e ∈ teardownTrace w dir ∨ e ∈ teardownTraceDrained w dir) :
    e.isFn = false ∧ e.isProbe = false ∧ ∀ v, e ≠ .exitObserved v := by
  have hsig : ∀ x ∈ signalTrace w,
      x.isFn = false ∧ x.isProbe = false ∧ ∀ v, x ≠ .exitObserved v := by
    intro x hx
    unfold signalTrace at hx
    split at hx <;> simp at hx
    · rcases hx with hx | hx <;> subst hx <;> exact ⟨rfl, rfl, fun v => by simp⟩
    · subst hx; exact ⟨rfl, rfl, fun v => by simp⟩
  have hlog : ∀ x ∈ exitLog w.wait,
      x.isFn = false ∧ x.isProbe = false ∧ ∀ v, x ≠ .exitObserved v := by
    intro x hx
    cases hw : w.wait with
    | none => rw [hw] at hx; simp [exitLog] at hx
    | some y =>
      rw [hw] at hx
      simp only [exitLog] at hx
      split at hx <;> simp at hx <;> subst hx <;> exact ⟨rfl, rfl, fun v => by simp⟩
  have hrm : ∀ x ∈ removeDir w dir,
      x.isFn = false ∧ x.isProbe = false ∧ ∀ v, x ≠ .exitObserved v := by
    intro x hx
    unfold removeDir at hx
    split at hx <;> simp at hx
    · rcases hx with hx | hx <;> subst hx <;> exact ⟨rfl, rfl, fun v => by simp⟩
    · subst hx; exact ⟨rfl, rfl, fun v => by simp⟩
  rcases h with h | h
  · simp only [teardownTrace, List.mem_append, List.mem_singleton] at h
    rcases h with ((h | h) | h) | h
    · exact hsig e h
    · subst h; exact ⟨rfl, rfl, fun v => by simp⟩
    · exact hlog e h
    · exact hrm e h
  · simp only [teardownTraceDrained, List.mem_append, List.mem_singleton] at h
    rcases h with (h | h) | h
    · exact hsig e h
    · subst h; exact ⟨rfl, rfl, fun v => by simp⟩
    · exact hrm e h

theorem filter_isProbe_teardown (w : World) (dir : String) :
    (teardownTrace w dir).filter Event.isProbe = [] ∧
      (teardownTraceDrained w dir).filter Event.isProbe = [] := by
  constructor <;> rw [List.filter_eq_nil_iff] <;> intro e he
  · simp [(teardownTrace_kinds w dir e (Or.inl he)).2.1]
  · simp [(teardownTrace_kinds w dir e (Or.inr he)).2.1]

theorem filter_isFn_teardown (w : World) (dir : String) :
    (teardownTrace w dir).filter Event.isFn = [] ∧
      (teardownTraceDrained w dir).filter Event.isFn = [] := by
  constructor <;> rw [List.filter_eq_nil_iff] <;> intro e he
  · simp [(teardownTrace_kinds w dir e (Or.inl he)).1]
  · simp [(teardownTrace_kinds w dir e (Or.inr he)).1]

theorem filter_startTrace (dir : String) :
    (startTrace dir).filter Event.isProbe = [] ∧ (startTrace dir).filter Event.isFn = [] ∧
      (startTrace dir).filter Event.isTeardown = [] ∧
      (startTrace dir).filter Event.isRemoveAll = [] := by
  simp [startTrace, List.filter, Event.isProbe, Event.isFn, Event.isTeardown, Event.isRemoveAll,
    initdbArgs]

/-- The loop reaches iteration `n` and leaves it at once with the result `r`. -/
theorem pollLoop_reach_stop (w : World) (dir : String) (fuel n : Nat) (hfuel : n < fuel)
    (hreach : ∀ i, i < n → continues w i) (last : List Event) (r : LoopExit) (s : Conc)
    (hstop : ∀ m, pollLoop w dir (m + 1) n conc0 = (last, r, s)) :
    ∃ pre, (∀ e ∈ pre, e.inLoop dir ∧ e.isFn = false ∧ ∀ v, e ≠ .exitObserved v) ∧
      (pre.filter Event.isProbe).length = n ∧
      pollLoop w dir fuel 0 conc0 = (pre ++ last, r, s) := by
  obtain ⟨m, rfl⟩ : ∃ m, fuel = n + (m + 1) := ⟨fuel - n - 1, by omega⟩
  obtain ⟨pre, h1, h2, h3⟩ := pollLoop_reach w dir (m + 1) n 0 (fun j hj => by
    simpa using hreach j hj)
  refine ⟨pre, h1, h2, ?_⟩
  rw [h3]
  simp [hstop m]

/-- The run whose loop became ready at iteration `n`. -/
theorem run_ready_at (w : World) (fn : String → FnResult) (fuel : Nat) (dir : String)
    (hdir : w.mkdirTemp = .ok dir) (hinit : w.initdb = none) (hstart : w.start = none)
    (n : Nat) (hfuel : n < fuel) (hreach : ∀ i, i < n → continues w i)
    (hrun : w.monitorProgress n = 0) (hp : w.probe n = none) :
    (pollLoop w dir fuel 0 conc0).2.1 = .ready ∧
      (WithPostgresql w fn fuel).outcome = (fn dir).outcome.toOutcome ∧
      ((WithPostgresql w fn fuel).trace.filter Event.isProbe).length = n + 1 ∧
      (WithPostgresql w fn fuel).trace.filter Event.isFn = [.fn dir (fn dir).effects] ∧
      ∃ pre post, (WithPostgresql w fn fuel).trace = pre ++ .fn dir (fn dir).effects :: post ∧
        (pre.filter Event.isProbe).length = n + 1 ∧ post.filter Event.isProbe = [] := by
  have hstop : ∀ m, pollLoop w dir (m + 1) n conc0 =
      ([.delayElapsed, .run (pgIsreadyArgs dir)], .ready, conc0) := by
    intro m
    have h0 : monitorRun w.wait 0 conc0 = conc0 := rfl
    have hr : conc0.ch.recv = none := rfl
    rw [pollLoop]
    simp only [hrun, h0, hr, hp]
  obtain ⟨pre, h1, h2, h3⟩ := pollLoop_reach_stop w dir fuel n hfuel hreach _ _ _ hstop
  have hready : (pollLoop w dir fuel 0 conc0).2.1 = .ready := by rw [h3]
  have hpre : pre.filter Event.isFn = [] := by
    rw [List.filter_eq_nil_iff]
    intro e he
    simp [(h1 e he).2.1]
  have hrun := run_of_ready w fn fuel dir hdir hinit hstart hready
  rw [h3] at hrun
  refine ⟨hready, by rw [hrun], ?_, ?_, ?_⟩
  · rw [hrun]
    simp [List.filter_append, filter_startTrace, filter_isProbe_teardown, h2,
      Event.isProbe, pgIsreadyArgs]
  · rw [hrun]
    simp [List.filter_append, filter_startTrace, filter_isFn_teardown, hpre, Event.isFn]
  · refine ⟨startTrace dir ++ (pre ++ [.delayElapsed, .run (pgIsreadyArgs dir)]),
      teardownTrace w dir, ?_, ?_, (filter_isProbe_teardown w dir).1⟩
    · rw [hrun]; simp
    · simp [List.filter_append, filter_startTrace, h2, Event.isProbe, pgIsreadyArgs]

/-- The run whose loop returned the error `err` at iteration `n`, after `probes` further
probes in that iteration. -/
theorem run_failed_at (w : World) (fn : String → FnResult) (fuel : Nat) (dir : String)
    (hdir : w.mkdirTemp = .ok dir) (hinit : w.initdb = none) (hstart : w.start = none)
    (n : Nat) (hfuel : n < fuel) (hreach : ∀ i, i < n → continues w i)
    (last : List Event) (err : GoErr) (s : Conc)
    (hstop : ∀ m, pollLoop w dir (m + 1) n conc0 = (last, .failed err, s)) :
    (pollLoop w dir fuel 0 conc0).2 = (.failed err, s) ∧
      (WithPostgresql w fn fuel).outcome = .returned (some err) ∧
      (WithPostgresql w fn fuel).trace.filter Event.isFn = [] ∧
      ((WithPostgresql w fn fuel).trace.filter Event.isProbe).length =
        n + (last.filter Event.isProbe).length := by
  obtain ⟨pre, _, h2, h3⟩ := pollLoop_reach_stop w dir fuel n hfuel hreach _ _ _ hstop
  have hfailed : (pollLoop w dir fuel 0 conc0).2.1 = .failed err := by rw [h3]
  obtain ⟨r1, r2, _⟩ := run_of_failed w fn fuel dir hdir hinit hstart err hfailed
  refine ⟨by rw [h3], r1, r2, ?_⟩
  rcases started_run w fn fuel dir hdir hinit hstart with
    ⟨h, _⟩ | ⟨h, _, _⟩ | ⟨⟨e, _, h⟩, _⟩ | ⟨_, _, h⟩
  · rw [hfailed] at h; cases h
  · rw [hfailed] at h; cases h
  · rw [h, h3]
    simp [List.filter_append, filter_startTrace, filter_isProbe_teardown, h2]
  · rw [h, h3]
    simp [List.filter_append, filter_startTrace, filter_isProbe_teardown, h2]

/-- Claim C5: the exit status `c` of the probe of iteration `n` is classified three
ways.  Status 0 leaves the loop as ready and the workload runs; the rejecting status 1
and the no-response status 2 log and go on to iteration `n + 1`; every other status
makes the run return the non-nil error `pg_isready` wrapping the exit error, without
invoking the workload. -/
theorem probe_classification (w : World) (fn : String → FnResult) (fuel : Nat) (dir : String)
    (n : Nat) (c : Int) (hdir : w.mkdirTemp = .ok dir) (hinit : w.initdb = none)
    (hstart : w.start = none) (hfuel : n < fuel) (hreach : ∀ i, i < n → continues w i)
    (hrun : w.monitorProgress n = 0) (hp : w.probe n = exitStatus c) :
    (c = 0 →
      (pollLoop w dir fuel 0 conc0).2.1 = .ready ∧
        (WithPostgresql w fn fuel).trace.filter Event.isFn = [.fn dir (fn dir).effects]) ∧
    (c = pqPingReject ∨ c = pqPingNoResponse →
      ∀ m, pollLoop w dir (m + 1) n conc0 =
        ([.delayElapsed, .run (pgIsreadyArgs dir),
            .log .info "waiting for PostgreSQL to be ready"]
          ++ (pollLoop w dir m (n + 1) conc0).1, (pollLoop w dir m (n + 1) conc0).2)) ∧
    (c ≠ 0 → c ≠ pqPingReject → c ≠ pqPingNoResponse →
      (WithPostgresql w fn fuel).outcome =
          .returned (some (.wrapW "pg_isready" (.exitError c ("exit status " ++ toString c)))) ∧
        (WithPostgresql w fn fuel).trace.filter Event.isFn = []) := by
  have h0 : monitorRun w.wait 0 conc0 = conc0 := rfl
  have hr : conc0.ch.recv = none := rfl
  refine ⟨?_, ?_, ?_⟩
  · intro hc
    subst hc
    obtain ⟨r1, _, _, r4, _⟩ :=
      run_ready_at w fn fuel dir hdir hinit hstart n hfuel hreach hrun (by simpa [exitStatus] using hp)
    exact ⟨r1, r4⟩
  · intro hc m
    have hc0 : c ≠ 0 := by
      rcases hc with hc | hc <;> subst hc <;> decide
    rw [pollLoop]
    simp only [hrun, h0, hr, hp, exitStatus, hc0, if_false, GoErr.asExitError, hc, if_true]
  · intro hc0 hc1 hc2
    have hstop : ∀ m, pollLoop w dir (m + 1) n conc0 =
        ([.delayElapsed, .run (pgIsreadyArgs dir)],
          .failed (.wrapW "pg_isready" (.exitError c ("exit status " ++ toString c))), conc0) := by
      intro m
      rw [pollLoop]
      simp only [hrun, h0, hr, hp, exitStatus, hc0, if_false, GoErr.asExitError, hc1, hc2,
        or_self]
    obtain ⟨_, r1, r2, _⟩ :=
      run_failed_at w fn fuel dir hdir hinit hstart n hfuel hreach _ _ _ hstop
    exact ⟨r1, r2⟩

theorem probe_classification_witness :
    (scripted [2, 3]).mkdirTemp = .ok "/tmp/tmppg1" ∧ (scripted [2, 3]).initdb = none ∧
      (scripted [2, 3]).start = none ∧ 1 < 2 ∧ (∀ i, i < 1 → continues (scripted [2, 3]) i) ∧
      (scripted [2, 3]).monitorProgress 1 = 0 ∧
      (scripted [2, 3]).probe 1 = exitStatus pqPingNoAttempt ∧
      (WithPostgresql (scripted [2, 3]) fnOk 2).outcome =
        .returned (some (.wrapW "pg_isready"
          (.exitError pqPingNoAttempt ("exit status " ++ toString pqPingNoAttempt)))) ∧
      (WithPostgresql (scripted [2, 3]) fnOk 2).trace.filter Event.isFn = [] :=
  have hreach : ∀ i, i < 1 → continues (scripted [2, 3]) i := by
    intro i hi
    interval_cases i
    exact ⟨rfl, _, rfl, Or.inr (Or.inr rfl)⟩
  ⟨rfl, rfl, rfl, by decide, hreach, rfl, rfl,
    (probe_classification (scripted [2, 3]) fnOk 2 "/tmp/tmppg1" 1 pqPingNoAttempt rfl rfl rfl
      (by decide) hreach rfl rfl).2.2 (by decide) (by decide) (by decide)⟩

/-- Claim C6: for every `k`, if bootstrap and start succeed, the server is running
during the first `k + 1` iterations, the first `k` probes end with the rejecting or the
no-response status and the next probe succeeds, then with any fuel above `k` the loop
ends ready, exactly `k + 1` probes are run, and the workload is invoked exactly once, on
the scratch directory, after all of them; the run ends as the workload does. -/
theorem ready_after_retries (w : World) (fn : String → FnResult) (fuel : Nat) (dir : String)
    (k : Nat) (hdir : w.mkdirTemp = .ok dir) (hinit : w.initdb = none)
    (hstart : w.start = none) (hfuel : k < fuel) (htrans : ∀ i, i < k → transient w i)
    (hrun : w.monitorProgress k = 0) (hp : w.probe k = none) :
    (pollLoop w dir fuel 0 conc0).2.1 = .ready ∧
      (WithPostgresql w fn fuel).outcome = (fn dir).outcome.toOutcome ∧
      ((WithPostgresql w fn fuel).trace.filter Event.isProbe).length = k + 1 ∧
      (WithPostgresql w fn fuel).trace.filter Event.isFn = [.fn dir (fn dir).effects] ∧
      ∃ pre post, (WithPostgresql w fn fuel).trace = pre ++ .fn dir (fn dir).effects :: post ∧
        (pre.filter Event.isProbe).length = k + 1 ∧ post.filter Event.isProbe = [] :=
  run_ready_at w fn fuel dir hdir hinit hstart k hfuel
    (fun i hi => transient_continues (htrans i hi)) hrun hp

theorem ready_after_retries_witness :
    (scripted [2, 2, 2, 0]).mkdirTemp = .ok "/tmp/tmppg1" ∧
      (scripted [2, 2, 2, 0]).initdb = none ∧ (scripted [2, 2, 2, 0]).start = none ∧ 3 < 4 ∧
      (∀ i, i < 3 → transient (scripted [2, 2, 2, 0]) i) ∧
      (scripted [2, 2, 2, 0]).monitorProgress 3 = 0 ∧ (scripted [2, 2, 2, 0]).probe 3 = none ∧
      (fnOk "/tmp/tmppg1").outcome.toOutcome = .returned none ∧
      ((pollLoop (scripted [2, 2, 2, 0]) "/tmp/tmppg1" 4 0 conc0).2.1 = .ready ∧
        (WithPostgresql (scripted [2, 2, 2, 0]) fnOk 4).outcome =
          (fnOk "/tmp/tmppg1").outcome.toOutcome ∧
        ((WithPostgresql (scripted [2, 2, 2, 0]) fnOk 4).trace.filter Event.isProbe).length =
          3 + 1 ∧
        (WithPostgresql (scripted [2, 2, 2, 0]) fnOk 4).trace.filter Event.isFn =
          [.fn "/tmp/tmppg1" (fnOk "/tmp/tmppg1").effects] ∧
        ∃ pre post, (WithPostgresql (scripted [2, 2, 2, 0]) fnOk 4).trace =
            pre ++ .fn "/tmp/tmppg1" (fnOk "/tmp/tmppg1").effects :: post ∧
          (pre.filter Event.isProbe).length = 3 + 1 ∧ post.filter Event.isProbe = []) :=
  have htrans : ∀ i, i < 3 → transient (scripted [2, 2, 2, 0]) i := by
    intro i hi
    interval_cases i <;> exact ⟨rfl, _, rfl, Or.inr rfl⟩
  ⟨rfl, rfl, rfl, by decide, htrans, rfl, rfl, rfl,
    ready_after_retries (scripted [2, 2, 2, 0]) fnOk 4 "/tmp/tmppg1" 3 rfl rfl rfl (by decide)
      htrans rfl rfl⟩

/-- Claim C7: if `initdb` fails, the run returns the non-nil error `initdb` wrapping the
failure, and its effects are the creation of the directory, the `initdb` run, a debug
record and the removal of the directory (with its record when the removal fails): no
server start, no monitor, no SIGTERM, no probe and no workload. -/
theorem initdb_failure (w : World) (fn : String → FnResult) (fuel : Nat) (dir : String)
    (e : GoErr) (hdir : w.mkdirTemp = .ok dir) (hinit : w.initdb = some e) :
    WithPostgresql w fn fuel =
        ⟨[.mkdirTemp, .run (initdbArgs dir), .log .debug "initdb failed with arguments"]
          ++ removeDir w dir, .returned (some (.wrapW "initdb" e))⟩ ∧
      (GoErr.wrapW "initdb" e).text = "initdb: " ++ e.text ∧
      (WithPostgresql w fn fuel).trace.filter Event.isRemoveAll = [.removeAll dir] ∧
      ∀ ev ∈ (WithPostgresql w fn fuel).trace,
        (∀ a, ev ≠ .start a) ∧ ev ≠ .goMonitor ∧ ev ≠ .signalTerm ∧ ev.isProbe = false ∧
          ev.isFn = false := by
  have h : WithPostgresql w fn fuel =
      ⟨[.mkdirTemp, .run (initdbArgs dir), .log .debug "initdb failed with arguments"]
        ++ removeDir w dir, .returned (some (.wrapW "initdb" e))⟩ := by
    simp only [WithPostgresql, hdir, hinit]
  refine ⟨h, rfl, ?_, ?_⟩
  · rw [h]
    simp [List.filter_append, filter_isRemoveAll_removeDir, Event.isRemoveAll]
  · rw [h]
    intro ev hev
    simp only [removeDir, List.mem_append, List.mem_cons, List.mem_singleton,
      List.not_mem_nil, or_false] at hev
    rcases hev with (hev | hev | hev) | hev
    · subst hev; simp [Event.isProbe, Event.isFn]
    · subst hev; simp [Event.isProbe, Event.isFn, initdbArgs]
    · subst hev; simp [Event.isProbe, Event.isFn]
    · split at hev <;> simp at hev
      · rcases hev with hev | hev <;> subst hev <;> simp [Event.isProbe, Event.isFn]
      · subst hev; simp [Event.isProbe, Event.isFn]

theorem initdb_failure_witness :
    initdbFails.mkdirTemp = .ok "/tmp/tmppg1" ∧
      initdbFails.initdb = some (.exitError 1 ("exit status " ++ toString (1 : Int))) ∧
      WithPostgresql initdbFails fnOk 4 =
        ⟨[.mkdirTemp, .run (initdbArgs "/tmp/tmppg1"),
          .log .debug "initdb failed with arguments", .removeAll "/tmp/tmppg1"],
          .returned (some (.wrapW "initdb"
            (.exitError 1 ("exit status " ++ toString (1 : Int)))))⟩ :=
  ⟨rfl, rfl,
    (initdb_failure initdbFails fnOk 4 "/tmp/tmppg1"
      (.exitError 1 ("exit status " ++ toString (1 : Int))) rfl rfl).1⟩

/-- The loop reads only `Wait`, the scheduling and the probes from the world. -/
theorem pollLoop_congr (w w2 : World) (dir : String) (hw : w2.wait = w.wait)
    (hm : w2.monitorProgress = w.monitorProgress) (hp : w2.probe = w.probe) :
    ∀ (fuel i : Nat) (s : Conc), pollLoop w2 dir fuel i s = pollLoop w dir fuel i s := by
  intro fuel
  induction fuel with
  | zero => intro i s; rfl
  | succ n ih =>
    intro i s
    rw [pollLoop, pollLoop]
    simp only [hw, hm, hp, ih]

/-- A loop that never received the exit value does not depend on it. -/
theorem pollLoop_wait (w w2 : World) (dir : String)
    (hm : w2.monitorProgress = w.monitorProgress) (hp : w2.probe = w.probe) :
    ∀ (fuel i : Nat), (∀ v, Event.exitObserved v ∉ (pollLoop w dir fuel i conc0).1) →
      pollLoop w2 dir fuel i conc0 = pollLoop w dir fuel i conc0 := by
  intro fuel
  induction fuel with
  | zero => intro i _; rfl
  | succ n ih =>
    intro i h
    have h0 : ∀ x, monitorRun x 0 conc0 = conc0 := fun _ => rfl
    have hr : conc0.ch.recv = none := rfl
    rw [pollLoop] at h ⊢
    rw [pollLoop]
    rcases hmi : w.monitorProgress i with _ | _ | k
    · simp only [hm, hp, hmi, h0, hr] at h ⊢
      rcases hpi : w.probe i with _ | err
      · rfl
      · simp only [hpi] at h ⊢
        rcases hc : err.asExitError with _ | code
        · simp only [hc] at h ⊢
          rw [ih (i + 1) (fun v hv => h v (by simp [hv]))]
        · simp only [hc] at h ⊢
          split
          · rename_i hcode
            simp only [hcode, if_true] at h
            rw [ih (i + 1) (fun v hv => h v (by simp [hv]))]
          · rfl
    · exfalso
      have h1 : monitorRun w.wait (0 + 1) conc0 = ⟨.sent, ⟨1, [w.wait], false⟩⟩ := rfl
      simp only [hmi, h1] at h
      exact h w.wait (by simp [Chan.recv])
    · exfalso
      simp only [hmi, monitorRun_conc0_two] at h
      exact h w.wait (by simp [Chan.recv])

theorem outcome_started (w : World) (fn : String → FnResult) (fuel : Nat) (dir : String)
    (hdir : w.mkdirTemp = .ok dir) (hinit : w.initdb = none) (hstart : w.start = none) :
    (WithPostgresql w fn fuel).outcome =
      match (pollLoop w dir fuel 0 conc0).2.1 with
      | .unfinished => .polling
      | .failed e => .returned (some e)
      | .ready => (fn dir).outcome.toOutcome := by
  rcases started_run w fn fuel dir hdir hinit hstart with
    ⟨h1, h⟩ | ⟨h1, _, h⟩ | ⟨⟨e, h1, h⟩, _⟩ | ⟨h1, _, h⟩ <;> rw [h, h1]

/-- The deferred receive always completes: the monitor closes the channel after its one
send, so no run ends parked on `exitErrCh`. -/
theorem outcome_ne_deadlock (w : World) (fn : String → FnResult) (fuel : Nat) :
    (WithPostgresql w fn fuel).outcome ≠ .deadlock := by
  rcases hdir : w.mkdirTemp with e | dir
  · simp [WithPostgresql, hdir]
  · rcases hinit : w.initdb with _ | e
    · rcases hstart : w.start with _ | e
      · rcases started_run w fn fuel dir hdir hinit hstart with
          ⟨_, h⟩ | ⟨_, _, h⟩ | ⟨⟨e, _, h⟩, _⟩ | ⟨_, _, h⟩ <;> rw [h]
        · simp
        · cases (fn dir).outcome <;> simp [FnOutcome.toOutcome]
        · simp
        · simp
      · simp [WithPostgresql, hdir, hinit, hstart]
    · simp [WithPostgresql, hdir, hinit]

/-- The workload call of a run, if there is one, is on the created directory, and the
run then ends as the workload did. -/
theorem fn_events (w : World) (fn : String → FnResult) (fuel : Nat) :
    (WithPostgresql w fn fuel).trace.filter Event.isFn = [] ∨
      ∃ dir, (WithPostgresql w fn fuel).trace.filter Event.isFn = [.fn dir (fn dir).effects] ∧
        (WithPostgresql w fn fuel).outcome = (fn dir).outcome.toOutcome := by
  rcases hdir : w.mkdirTemp with e | dir
  · left; simp [WithPostgresql, hdir, Event.isFn]
  · rcases hinit : w.initdb with _ | e
    · rcases hstart : w.start with _ | e
      · rcases started_run w fn fuel dir hdir hinit hstart with
          ⟨_, h⟩ | ⟨_, _, h⟩ | ⟨⟨e, h1, _⟩, _⟩ | ⟨h1, _, _⟩
        · left; rw [h]
          simp [List.filter_append, filter_startTrace, filter_isFn_pollLoop]
        · right
          refine ⟨dir, ?_, by rw [h]⟩
          rw [h]
          simp [List.filter_append, filter_startTrace, filter_isFn_pollLoop,
            filter_isFn_teardown, Event.isFn]
        · left; exact (run_of_failed w fn fuel dir hdir hinit hstart _ h1).2.1
        · left; exact (run_of_failed w fn fuel dir hdir hinit hstart _ h1).2.1
      · left
        simp [WithPostgresql, hdir, hinit, hstart, Event.isFn, removeDir]
        cases w.removeAll <;> simp [Event.isFn]
    · left
      simp [WithPostgresql, hdir, hinit, Event.isFn, removeDir]
      cases w.removeAll <;> simp [Event.isFn]

theorem outcome_congr (w w2 : World) (fn : String → FnResult) (fuel : Nat)
    (h1 : w2.mkdirTemp = w.mkdirTemp) (h2 : w2.initdb = w.initdb) (h3 : w2.start = w.start)
    (hloop : ∀ dir, w.mkdirTemp = .ok dir → w.initdb = none → w.start = none →
      (pollLoop w2 dir fuel 0 conc0).2.1 = (pollLoop w dir fuel 0 conc0).2.1) :
    (WithPostgresql w2 fn fuel).outcome = (WithPostgresql w fn fuel).outcome := by
  rcases hdir : w.mkdirTemp with e | dir
  · simp [WithPostgresql, hdir, h1]
  · rcases hinit : w.initdb with _ | e
    · rcases hstart : w.start with _ | e
      · rw [outcome_started w fn fuel dir hdir hinit hstart,
          outcome_started w2 fn fuel dir (h1.trans hdir) (h2.trans hinit) (h3.trans hstart),
          hloop dir hdir hinit hstart]
      · simp [WithPostgresql, hdir, hinit, hstart, h1, h2, h3]
    · simp [WithPostgresql, hdir, hinit, h1, h2]

/-- Claim C8: the value a run returns does not depend on the teardown.  Changing the
results of the SIGTERM delivery and of the directory removal never changes the outcome;
when the loop did not receive the exit value, so that the teardown does, changing what
`Wait` returns does not change it either; and whenever the workload was invoked the
outcome is the workload's own. -/
theorem result_ignores_teardown (w : World) (fn : String → FnResult) (fuel : Nat) :
    (∀ s r, (WithPostgresql { w with signal := s, removeAll := r } fn fuel).outcome =
      (WithPostgresql w fn fuel).outcome) ∧
    (∀ s r x, (WithPostgresql w fn fuel).trace.filter Event.isExitObserved = [] →
      (WithPostgresql { w with signal := s, removeAll := r, wait := x } fn fuel).outcome =
        (WithPostgresql w fn fuel).outcome) ∧
    (∀ d eff, Event.fn d eff ∈ (WithPostgresql w fn fuel).trace →
      (WithPostgresql w fn fuel).outcome = (fn d).outcome.toOutcome) := by
  refine ⟨?_, ?_, ?_⟩
  · intro s r
    refine outcome_congr w _ fn fuel rfl rfl rfl (fun dir _ _ _ => ?_)
    exact congrArg (fun p => p.2.1) (pollLoop_congr w { w with signal := s, removeAll := r } dir rfl rfl rfl fuel 0 conc0)
  · intro s r x hnil
    have hno : ∀ v, Event.exitObserved v ∉ (WithPostgresql w fn fuel).trace := by
      intro v hv
      have := List.filter_eq_nil_iff.1 hnil _ hv
      simp [Event.isExitObserved] at this
    refine outcome_congr w _ fn fuel rfl rfl rfl (fun dir hdir hinit hstart => ?_)
    refine congrArg (fun p => p.2.1) (pollLoop_wait w { w with signal := s, removeAll := r, wait := x } dir rfl rfl fuel 0 ?_)
    intro v hv
    refine hno v ?_
    rcases started_run w fn fuel dir hdir hinit hstart with
      ⟨_, h⟩ | ⟨_, _, h⟩ | ⟨⟨e, _, h⟩, _⟩ | ⟨_, _, h⟩ <;> rw [h] <;> simp [hv]
  · intro d eff hmem
    have hf : Event.fn d eff ∈ (WithPostgresql w fn fuel).trace.filter Event.isFn :=
      List.mem_filter.2 ⟨hmem, rfl⟩
    rcases fn_events w fn fuel with h | ⟨dir, h, hout⟩
    · rw [h] at hf; simp at hf
    · rw [h] at hf
      simp at hf
      rw [hout, hf.1]

theorem result_ignores_teardown_witness :
    (WithPostgresql (scripted [2]) fnFails 2).trace.filter Event.isExitObserved = [] ∧
      (WithPostgresql (teardownFails (scripted [2])) fnFails 2).outcome =
        (WithPostgresql (scripted [2]) fnFails 2).outcome ∧
      Event.fn "/tmp/tmppg1" [] ∈ (WithPostgresql (scripted [2]) fnFails 2).trace ∧
      (WithPostgresql (scripted [2]) fnFails 2).outcome =
        .returned (some (.other "workload failed")) :=
  ⟨by decide,
    (result_ignores_teardown (scripted [2]) fnFails 2).2.1 _ _ _ (by decide),
    by decide,
    (result_ignores_teardown (scripted [2]) fnFails 2).2.2 "/tmp/tmppg1" [] (by decide)⟩

/-- More fuel does not change a loop that has ended. -/
theorem pollLoop_fuel_succ (w : World) (dir : String) :
    ∀ (fuel i : Nat) (s : Conc), (pollLoop w dir fuel i s).2.1 ≠ .unfinished →
      pollLoop w dir (fuel + 1) i s = pollLoop w dir fuel i s := by
  intro fuel
  induction fuel with
  | zero => intro i s h; exact absurd rfl h
  | succ n ih =>
    intro i s h
    rw [pollLoop] at h
    conv_lhs => rw [pollLoop]
    conv_rhs => rw [pollLoop]
    simp only at h ⊢
    split
    · rfl
    · rename_i hrecv
      simp only [hrecv] at h
      split
      · rfl
      · rename_i err hprobe
        simp only [hprobe] at h
        split
        · rename_i code hcode
          simp only [hcode] at h
          split
          · rename_i hc
            simp only [hc, if_true] at h
            rw [ih (i + 1) _ h]
          · rfl
        · rename_i hcode
          simp only [hcode] at h
          rw [ih (i + 1) _ h]

theorem pollLoop_fuel_le (w : World) (dir : String) (fuel i : Nat) (s : Conc)
    (h : (pollLoop w dir fuel i s).2.1 ≠ .unfinished) :
    ∀ more, pollLoop w dir (fuel + more) i s = pollLoop w dir fuel i s := by
  intro more
  induction more with
  | zero => rfl
  | succ m ih =>
    rw [← Nat.add_assoc, pollLoop_fuel_succ w dir (fuel + m) i s (by rw [ih]; exact h), ih]

/-- A run whose loop has ended is the same with any larger fuel. -/
theorem WithPostgresql_fuel_le (w : World) (fn : String → FnResult) (fuel : Nat)
    (h : (WithPostgresql w fn fuel).outcome ≠ .polling) :
    ∀ more, WithPostgresql w fn (fuel + more) = WithPostgresql w fn fuel := by
  intro more
  rcases hdir : w.mkdirTemp with e | dir
  · simp only [WithPostgresql, hdir]
  · rcases hinit : w.initdb with _ | e
    · rcases hstart : w.start with _ | e
      · have hne : (pollLoop w dir fuel 0 conc0).2.1 ≠ .unfinished := by
          intro hu
          rw [outcome_started w fn fuel dir hdir hinit hstart, hu] at h
          exact h rfl
        rw [WithPostgresql_started w fn (fuel + more) dir hdir hinit hstart,
          WithPostgresql_started w fn fuel dir hdir hinit hstart,
          pollLoop_fuel_le w dir fuel 0 conc0 hne more]
      · simp only [WithPostgresql, hdir, hinit, hstart]
    · simp only [WithPostgresql, hdir, hinit]

theorem trace_starts_mkdirTemp (w : World) (fn : String → FnResult) (fuel : Nat) :
    ∃ t, (WithPostgresql w fn fuel).trace = .mkdirTemp :: t := by
  rcases hdir : w.mkdirTemp with e | dir
  · exact ⟨[], by simp [WithPostgresql, hdir]⟩
  · rcases hinit : w.initdb with _ | e
    · rcases hstart : w.start with _ | e
      · rcases started_run w fn fuel dir hdir hinit hstart with
          ⟨_, h⟩ | ⟨_, _, h⟩ | ⟨⟨e, _, h⟩, _⟩ | ⟨_, _, h⟩ <;>
        exact ⟨_, by rw [h]; rfl⟩
      · exact ⟨_, by simp only [WithPostgresql, hdir, hinit, hstart]; rfl⟩
    · exact ⟨_, by simp only [WithPostgresql, hdir, hinit]; rfl⟩

/-- Claim C10: the wrapper ends with the usage record and exit code 1, without calling
`RunWithPostgresql`, exactly when its argument vector has fewer than three elements or
its second element is not `--`; otherwise it calls `RunWithPostgresql` on the elements
from the third on, which are all the elements after `--`, and exits with code 1 exactly
when that call returns an error. -/
theorem wrapper_main (w : World) (osArgs : List String) (fuel : Nat) :
    (main w osArgs fuel = ([.log .error "usage: tmppg -- command [args...]"], .code 1) ↔
      (osArgs.length < 3 ∨ osArgs[1]? ≠ some "--")) ∧
    (¬(osArgs.length < 3 ∨ osArgs[1]? ≠ some "--") →
      (∃ tail, (main w osArgs fuel).1 =
        (RunWithPostgresql w (osArgs.drop 2) fuel).trace ++ tail) ∧
      ((main w osArgs fuel).2 = .code 1 ↔
        ∃ e, (RunWithPostgresql w (osArgs.drop 2) fuel).outcome = .returned (some e))) ∧
    (∀ prog cmd, osArgs = prog :: "--" :: cmd → cmd ≠ [] →
      ¬(osArgs.length < 3 ∨ osArgs[1]? ≠ some "--") ∧ osArgs.drop 2 = cmd) := by
  have hrun : ¬(osArgs.length < 3 ∨ osArgs[1]? ≠ some "--") →
      (∃ tail, (main w osArgs fuel).1 =
        (RunWithPostgresql w (osArgs.drop 2) fuel).trace ++ tail) ∧
      ((main w osArgs fuel).2 = .code 1 ↔
        ∃ e, (RunWithPostgresql w (osArgs.drop 2) fuel).outcome = .returned (some e)) := by
    intro hc
    simp only [main, hc, if_false]
    rcases ho : (RunWithPostgresql w (osArgs.drop 2) fuel).outcome with (_ | e) | _ | _ | _
    · exact ⟨⟨[], by simp⟩, by simp⟩
    · exact ⟨⟨_, rfl⟩, by simp⟩
    · exact ⟨⟨[], by simp⟩, by simp⟩
    · exact ⟨⟨[], by simp⟩, by simp⟩
    · exact ⟨⟨[], by simp⟩, by simp⟩
  refine ⟨⟨?_, ?_⟩, hrun, ?_⟩
  rotate_left 2
  · intro prog cmd hargs hcmd
    subst hargs
    cases cmd with
    | nil => exact absurd rfl hcmd
    | cons c cs => simp
  · intro h
    by_contra hc
    obtain ⟨⟨tail, ht⟩, _⟩ := hrun hc
    obtain ⟨t, hm⟩ := trace_starts_mkdirTemp w (runCommand w (osArgs.drop 2)) fuel
    rw [h] at ht
    unfold RunWithPostgresql at ht
    rw [hm] at ht
    simp at ht
  · intro hc
    simp only [main, hc, if_true]

theorem wrapper_main_witness :
    ¬((["tmppg", "--", "false"] : List String).length < 3 ∨
        (["tmppg", "--", "false"] : List String)[1]? ≠ some "--") ∧
      (RunWithPostgresql commandFails ["false"] 1).outcome =
        .returned (some (.errorfV ("[false]: " ++ ("exit status " ++ toString (1 : Int))))) ∧
      (main commandFails ["tmppg", "--", "false"] 1).2 = .code 1 ∧
      main commandFails ["tmppg", "--"] 1 =
        ([.log .error "usage: tmppg -- command [args...]"], .code 1) :=
  ⟨by decide, rfl,
    ((wrapper_main commandFails ["tmppg", "--", "false"] 1).2.1 (by decide)).2.2 ⟨_, rfl⟩,
    (wrapper_main commandFails ["tmppg", "--"] 1).1.2 (by decide)⟩

theorem pollLoop_probeMissing (dir : String) :
    ∀ (fuel i : Nat), (pollLoop probeMissing dir fuel i conc0).2 = (.unfinished, conc0) ∧
      ∀ e ∈ (pollLoop probeMissing dir fuel i conc0).1,
        e = .delayElapsed ∨ e = .run (pgIsreadyArgs dir) := by
  intro fuel
  induction fuel with
  | zero => intro i; simp [pollLoop]
  | succ n ih =>
    intro i
    have h0 : monitorRun probeMissing.wait (probeMissing.monitorProgress i) conc0 = conc0 := rfl
    have hr : conc0.ch.recv = none := rfl
    have hp : probeMissing.probe i =
      some (.other "exec: pg_isready: executable file not found in $PATH") := rfl
    rw [pollLoop]
    simp only [h0, hr, hp, GoErr.asExitError]
    refine ⟨(ih (i + 1)).1, ?_⟩
    intro e he
    simp only [List.cons_append, List.nil_append, List.mem_cons] at he
    rcases he with he | he | he
    · exact Or.inl he
    · exact Or.inr he
    · exact (ih (i + 1)).2 e he

/-- Claim C4 fails on the code.  When `pg_isready` cannot be launched, its `Run` error is
not an exit error and the loop goes on silently: with every probe failing so, the run
never returns, for any fuel, and has no teardown effect and no log record; with the first
probe failing so and the second succeeding, the workload is invoked and the run returns
nil. -/
theorem probe_launch_failure_not_fatal :
    (∀ fuel, (WithPostgresql probeMissing fnOk fuel).outcome = .polling ∧
      (WithPostgresql probeMissing fnOk fuel).trace.filter Event.isTeardown = [] ∧
      (WithPostgresql probeMissing fnOk fuel).trace.filter Event.isLog = []) ∧
    WithPostgresql probeMissingOnce fnOk 2 =
      ⟨[.mkdirTemp, .run (initdbArgs "/tmp/tmppg1"), .start (postgresArgs "/tmp/tmppg1"),
        .goMonitor, .delayElapsed, .run (pgIsreadyArgs "/tmp/tmppg1"), .delayElapsed,
        .run (pgIsreadyArgs "/tmp/tmppg1"), .fn "/tmp/tmppg1" [], .signalTerm,
        .awaitedExit none, .removeAll "/tmp/tmppg1"], .returned none⟩ := by
  refine ⟨fun fuel => ?_, rfl⟩
  obtain ⟨h1, h2⟩ := pollLoop_probeMissing "/tmp/tmppg1" fuel 0
  have hrun : WithPostgresql probeMissing fnOk fuel =
      ⟨startTrace "/tmp/tmppg1" ++ (pollLoop probeMissing "/tmp/tmppg1" fuel 0 conc0).1,
        .polling⟩ := by
    rcases started_run probeMissing fnOk fuel "/tmp/tmppg1" rfl rfl rfl with
      ⟨_, h⟩ | ⟨h, _, _⟩ | ⟨⟨e, h, _⟩, _⟩ | ⟨h, _, _⟩
    · exact h
    · rw [h1] at h; cases h
    · rw [h1] at h; cases h
    · rw [h1] at h; cases h
  have hlog : (pollLoop probeMissing "/tmp/tmppg1" fuel 0 conc0).1.filter Event.isLog = [] := by
    rw [List.filter_eq_nil_iff]
    intro e he
    rcases h2 e he with he | he <;> subst he <;> simp [Event.isLog]
  rw [hrun]
  refine ⟨rfl, ?_, ?_⟩
  · simp [List.filter_append, filter_startTrace, filter_isTeardown_pollLoop]
  · simp [List.filter_append, hlog, startTrace, Event.isLog]

theorem removeAll_iff_created_witness :
    mkdirFails.mkdirTemp = .error (.other "mkdir /tmp/tmppg1: no space left on device") ∧
      (WithPostgresql mkdirFails fnOk 4).trace.filter Event.isRemoveAll = [] ∧
      (scripted [2, 3]).mkdirTemp = .ok "/tmp/tmppg1" ∧
      (WithPostgresql (scripted [2, 3]) fnOk 4).outcome ≠ .polling ∧
      (WithPostgresql (scripted [2, 3]) fnOk 4).trace.filter Event.isRemoveAll =
        [.removeAll "/tmp/tmppg1"] :=
  ⟨rfl, (removeAll_iff_created mkdirFails fnOk 4).1 _ rfl, rfl, by decide,
    (removeAll_iff_created (scripted [2, 3]) fnOk 4).2 "/tmp/tmppg1" rfl (by decide)⟩

/-! ## The order of the teardown -/

theorem isExitObserved_eq {e : Event} (h : e.isExitObserved = true) :
    ∃ v, e = .exitObserved v := by
  cases e <;> simp [Event.isExitObserved] at h
  exact ⟨_, rfl⟩

theorem filter_isExitObserved_teardown (w : World) (dir : String) :
    (teardownTrace w dir).filter Event.isExitObserved = [] ∧
      (teardownTraceDrained w dir).filter Event.isExitObserved = [] := by
  constructor <;> rw [List.filter_eq_nil_iff] <;> intro e he hobs <;>
    obtain ⟨v, hv⟩ := isExitObserved_eq hobs
  · exact (teardownTrace_kinds w dir e (Or.inl he)).2.2 v hv
  · exact (teardownTrace_kinds w dir e (Or.inr he)).2.2 v hv

theorem filter_isExitObserved_nil {l : List Event} (h : ∀ v, Event.exitObserved v ∉ l) :
    l.filter Event.isExitObserved = [] := by
  rw [List.filter_eq_nil_iff]
  intro e he hobs
  obtain ⟨v, hv⟩ := isExitObserved_eq hobs
  exact h v (hv ▸ he)

theorem filter_isExitObserved_ne_nil {l : List Event} {v : Option GoErr}
    (h : Event.exitObserved v ∈ l) : l.filter Event.isExitObserved ≠ [] := by
  intro hnil
  have := List.filter_eq_nil_iff.1 hnil _ h
  simp [Event.isExitObserved] at this

/-- The teardown effects of a run with a started server whose body has ended, with the
value the deferred receive got. -/
theorem teardown_values_started (w : World) (fn : String → FnResult) (fuel : Nat) (dir : String)
    (hdir : w.mkdirTemp = .ok dir) (hinit : w.initdb = none) (hstart : w.start = none)
    (hend : (WithPostgresql w fn fuel).outcome ≠ .polling) :
    ((WithPostgresql w fn fuel).trace.filter Event.isExitObserved = [] ∧
        (pollLoop w dir fuel 0 conc0).2.2 = conc0 ∧
        (WithPostgresql w fn fuel).trace.filter Event.isTeardown =
          [.signalTerm, .awaitedExit w.wait, .removeAll dir]) ∨
      ((WithPostgresql w fn fuel).trace.filter Event.isExitObserved ≠ [] ∧
        (WithPostgresql w fn fuel).trace.filter Event.isTeardown =
          [.signalTerm, .awaitedExit none, .removeAll dir]) := by
  have hstate : (∀ v, Event.exitObserved v ∉ (pollLoop w dir fuel 0 conc0).1) →
      (pollLoop w dir fuel 0 conc0).2.2 = conc0 := by
    intro hno
    rcases pollLoop_cases w dir fuel 0 with ⟨hs, _, _⟩ | ⟨_, _, hex⟩
    · exact hs
    · exact absurd hex (hno _)
  rcases started_run w fn fuel dir hdir hinit hstart with
    ⟨_, h⟩ | ⟨_, hno, h⟩ | ⟨⟨e, _, h⟩, hno⟩ | ⟨_, hex, h⟩
  · rw [h] at hend; exact absurd rfl hend
  · left
    refine ⟨?_, hstate hno, ?_⟩
    · rw [h]
      simp [List.filter_append, filter_isExitObserved_nil hno,
        (filter_isExitObserved_teardown w dir).1, startTrace, Event.isExitObserved]
    · rw [h]
      simp [List.filter_append, filter_isTeardown_pollLoop, filter_isTeardown_teardownTrace,
        startTrace, Event.isTeardown]
  · left
    refine ⟨?_, hstate hno, ?_⟩
    · rw [h]
      simp [List.filter_append, filter_isExitObserved_nil hno,
        (filter_isExitObserved_teardown w dir).1, startTrace, Event.isExitObserved]
    · rw [h]
      simp [List.filter_append, filter_isTeardown_pollLoop, filter_isTeardown_teardownTrace,
        startTrace, Event.isTeardown]
  · right
    refine ⟨?_, ?_⟩
    · rw [h]
      exact filter_isExitObserved_ne_nil (v := w.wait) (by simp [hex])
    · rw [h]
      simp [List.filter_append, filter_isTeardown_pollLoop,
        filter_isTeardown_teardownTraceDrained, startTrace, Event.isTeardown]

/-- Claim C1: when the server process was started and the body has ended, the teardown
effects of the run are, in this order and each exactly once, the SIGTERM to the server,
the completed receive on the exit signal, and the removal of the scratch directory,
whatever the delivery of SIGTERM returned.  The receive is a real wait for the exit:
when the readiness loop has not taken the exit value, the channel is empty and open
when the teardown starts, so the receive cannot complete before the monitor has
published what `Wait` returned, and that is the value it gets; when the loop has taken
it, the receive gets nil from the closed channel. -/
theorem teardown_order (w : World) (fn : String → FnResult) (fuel : Nat) (dir : String)
    (hdir : w.mkdirTemp = .ok dir) (hinit : w.initdb = none) (hstart : w.start = none)
    (hend : (WithPostgresql w fn fuel).outcome ≠ .polling) :
    (WithPostgresql w fn fuel).trace.filter Event.isTeardown =
        [.signalTerm,
          .awaitedExit
            (if (WithPostgresql w fn fuel).trace.filter Event.isExitObserved = [] then w.wait
              else none),
          .removeAll dir] ∧
      ((WithPostgresql w fn fuel).trace.filter Event.isExitObserved = [] →
        (pollLoop w dir fuel 0 conc0).2.2.ch.recv = none ∧
          recvBlocking w.wait 3 (pollLoop w dir fuel 0 conc0).2.2 =
            some (w.wait, concSentDrained)) := by
  rcases teardown_values_started w fn fuel dir hdir hinit hstart hend with
    ⟨h1, h2, h3⟩ | ⟨h1, h3⟩
  · refine ⟨by rw [h3, if_pos h1], fun _ => ?_⟩
    rw [h2]
    exact ⟨rfl, rfl⟩
  · exact ⟨by rw [h3, if_neg h1], fun h => absurd h h1⟩

theorem teardown_order_witness :
    stopsWithError.mkdirTemp = .ok "/tmp/tmppg1" ∧ stopsWithError.initdb = none ∧
      stopsWithError.start = none ∧
      (WithPostgresql stopsWithError fnFails 3).outcome ≠ .polling ∧
      (WithPostgresql stopsWithError fnFails 3).trace.filter Event.isTeardown =
        [.signalTerm, .awaitedExit (some (.exitError 1 "exit status 1")),
          .removeAll "/tmp/tmppg1"] :=
  ⟨rfl, rfl, rfl, by decide,
    (teardown_order stopsWithError fnFails 3 "/tmp/tmppg1" rfl rfl rfl (by decide)).1.trans
      (by decide)⟩

/-! ## The unexpected exit -/

/-- Claim C3 as stated fails in one interleaving.  In `crashesEarly` the exit value is on
the channel when the third iteration of the loop waits, and the loop receives it after
the send of the monitor and before its close: when the deferred receive starts, the
channel is drained and still open, so the receive cannot return at once. -/
theorem unexpected_exit_receive_not_immediate :
    0 < crashesEarly.monitorProgress 2 ∧
      Event.exitObserved crashesEarly.wait ∈ (WithPostgresql crashesEarly fnOk 3).trace ∧
      (pollLoop crashesEarly "/tmp/tmppg1" 3 0 conc0).2.2.ch.closed = false ∧
      (pollLoop crashesEarly "/tmp/tmppg1" 3 0 conc0).2.2.ch.recv = none := by
  decide

/-- Claim C3, amended: if the exit outcome is available on the exit signal when
iteration `n` of the readiness loop waits, the run returns a non-nil error: the error
wrapping what `Wait` returned, with the text `postgres exited unexpectedly: ` followed by
the text of the cause, or, when `Wait` returned nil, the error with the text
`postgres exited unexpectedly: %!w(<nil>)`.  The workload is not invoked and the
teardown completes with the directory removed.  The deferred receive, the value having
been taken by the loop, gets nil from the closed channel: at once when the monitor has
already closed it; otherwise it waits for nothing but the close, the one step the
monitor has left, and returns nil right after it. -/
theorem unexpected_exit (w : World) (fn : String → FnResult) (fuel : Nat) (dir : String)
    (n : Nat) (hdir : w.mkdirTemp = .ok dir) (hinit : w.initdb = none)
    (hstart : w.start = none) (hfuel : n < fuel) (hreach : ∀ i, i < n → continues w i)
    (hexit : 0 < w.monitorProgress n) :
    (∀ c, w.wait = some c →
      (WithPostgresql w fn fuel).outcome =
          .returned (some (.wrapW "postgres exited unexpectedly" c)) ∧
        (GoErr.wrapW "postgres exited unexpectedly" c).text =
          "postgres exited unexpectedly: " ++ c.text) ∧
    (w.wait = none →
      (WithPostgresql w fn fuel).outcome =
          .returned (some (.wrapNil "postgres exited unexpectedly")) ∧
        (GoErr.wrapNil "postgres exited unexpectedly").text =
          "postgres exited unexpectedly: %!w(<nil>)") ∧
    (WithPostgresql w fn fuel).trace.filter Event.isFn = [] ∧
    (WithPostgresql w fn fuel).trace.filter Event.isTeardown =
      [.signalTerm, .awaitedExit none, .removeAll dir] ∧
    recvBlocking w.wait 3 (pollLoop w dir fuel 0 conc0).2.2 = some (none, concClosedDrained) ∧
    (2 ≤ w.monitorProgress n →
      (pollLoop w dir fuel 0 conc0).2.2.ch.closed = true ∧
        (pollLoop w dir fuel 0 conc0).2.2.ch.recv = some (none, concClosedDrained.ch)) ∧
    (w.monitorProgress n = 1 →
      (pollLoop w dir fuel 0 conc0).2.2.ch.closed = false ∧
        (pollLoop w dir fuel 0 conc0).2.2.ch.recv = none ∧
        (monitorStep w.wait (pollLoop w dir fuel 0 conc0).2.2).ch.recv =
          some (none, concClosedDrained.ch)) := by
  have hstop : ∃ s, (w.monitorProgress n = 1 → s = concSentDrained) ∧
      (2 ≤ w.monitorProgress n → s = concClosedDrained) ∧
      (s = concSentDrained ∨ s = concClosedDrained) ∧
      ∀ m, pollLoop w dir (m + 1) n conc0 =
        ([.exitObserved w.wait], .failed (errorfW "postgres exited unexpectedly" w.wait), s) := by
    rcases hm : w.monitorProgress n with _ | _ | k
    · omega
    · refine ⟨concSentDrained, fun _ => rfl, by omega, Or.inl rfl, fun m => ?_⟩
      have h1 : monitorRun w.wait (0 + 1) conc0 = ⟨.sent, ⟨1, [w.wait], false⟩⟩ := rfl
      rw [pollLoop]
      simp only [hm, h1]
      simp [Chan.recv, concSentDrained]
    · refine ⟨concClosedDrained, by omega, fun _ => rfl, Or.inr rfl, fun m => ?_⟩
      rw [pollLoop]
      simp only [hm, monitorRun_conc0_two]
      simp [Chan.recv, concClosedDrained]
  obtain ⟨s, hs1, hs2, hs, hstop⟩ := hstop
  obtain ⟨pre, _, _, h3⟩ := pollLoop_reach_stop w dir fuel n hfuel hreach _ _ _ hstop
  obtain ⟨_, r1, r2, _⟩ := run_failed_at w fn fuel dir hdir hinit hstart n hfuel hreach _ _ _ hstop
  refine ⟨?_, ?_, r2, ?_, ?_, ?_, ?_⟩
  · intro c hc
    rw [r1, hc]
    exact ⟨rfl, rfl⟩
  · intro hc
    rw [r1, hc]
    exact ⟨rfl, rfl⟩
  · rcases started_run w fn fuel dir hdir hinit hstart with
      ⟨h, _⟩ | ⟨h, _, _⟩ | ⟨_, h⟩ | ⟨_, _, h⟩
    · rw [h3] at h; cases h
    · rw [h3] at h; cases h
    · rw [h3] at h; exact absurd (by simp) (h w.wait)
    · rw [h]
      simp [List.filter_append, filter_startTrace, filter_isTeardown_pollLoop,
        filter_isTeardown_teardownTraceDrained]
  · rw [h3]
    rcases hs with hs | hs <;> subst hs <;> rfl
  · intro h2
    rw [h3, hs2 h2]
    exact ⟨rfl, rfl⟩
  · intro h1
    rw [h3, hs1 h1]
    exact ⟨rfl, rfl, rfl⟩

theorem unexpected_exit_witness :
    crashesEarly.mkdirTemp = .ok "/tmp/tmppg1" ∧ crashesEarly.initdb = none ∧
      crashesEarly.start = none ∧ 2 < 3 ∧ (∀ i, i < 2 → continues crashesEarly i) ∧
      0 < crashesEarly.monitorProgress 2 ∧
      crashesEarly.wait = some (.exitError 1 "exit status 1") ∧
      (WithPostgresql crashesEarly fnOk 3).outcome =
        .returned (some (.wrapW "postgres exited unexpectedly"
          (.exitError 1 "exit status 1"))) ∧
      (GoErr.wrapW "postgres exited unexpectedly" (.exitError 1 "exit status 1")).text =
        "postgres exited unexpectedly: exit status 1" :=
  have hreach : ∀ i, i < 2 → continues crashesEarly i := by
    intro i hi
    interval_cases i <;> exact ⟨rfl, _, rfl, Or.inr (Or.inr rfl)⟩
  ⟨rfl, rfl, rfl, by decide, hreach, by decide, by decide,
    (unexpected_exit crashesEarly fnOk 3 "/tmp/tmppg1" 2 rfl rfl rfl (by decide) hreach
      (by decide)).1 _ (by decide)⟩

/-! ## The environment of the wrapped command -/

theorem envKey_pghost (dir : String) : envKey ("PGHOST=" ++ dir) = some "PGHOST" := by
  have h : ("PGHOST=" ++ dir).data =
      'P' :: 'G' :: 'H' :: 'O' :: 'S' :: 'T' :: '=' :: dir.data := by
    rw [String.data_append]; rfl
  unfold envKey
  rw [h]
  simp [List.takeWhile]

/-- The loop of `dedupEnv` only drops entries. -/
theorem dedupEnvRev_sublist : ∀ (l saw : List String), (dedupEnvRev l saw).Sublist l := by
  intro l
  induction l with
  | nil => intro saw; simp [dedupEnvRev]
  | cons kv rest ih =>
    intro saw
    rw [dedupEnvRev]
    split
    · split
      · exact (ih saw).cons _
      · exact (ih saw).cons₂ _
    · split
      · exact (ih saw).cons _
      · exact (ih _).cons₂ _

/-- The loop of `dedupEnv` keeps no entry whose key was seen. -/
theorem dedupEnvRev_unseen : ∀ (l saw : List String) (kv : String),
    kv ∈ dedupEnvRev l saw → ∀ k, envKey kv = some k → k ∉ saw := by
  intro l
  induction l with
  | nil => intro saw kv h; simp [dedupEnvRev] at h
  | cons x rest ih =>
    intro saw kv h k hk
    rw [dedupEnvRev] at h
    split at h
    · rename_i hx
      split at h
      · exact ih saw kv h k hk
      · rcases List.mem_cons.1 h with h | h
        · subst h; rw [hx] at hk; cases hk
        · exact ih saw kv h k hk
    · rename_i kx hx
      split at h
      · exact ih saw kv h k hk
      · rename_i hnot
        rcases List.mem_cons.1 h with h | h
        · subst h
          rw [hx] at hk
          cases hk
          exact hnot
        · intro hmem
          exact ih (kx :: saw) kv h k hk (List.mem_cons_of_mem _ hmem)

/-- The loop of `dedupEnv` keeps a list without empty entries, without repeated keys and
without seen keys as it is. -/
theorem dedupEnvRev_id : ∀ (l saw : List String), (∀ kv ∈ l, kv ≠ "") →
    (l.filterMap envKey).Nodup → (∀ k ∈ l.filterMap envKey, k ∉ saw) →
    dedupEnvRev l saw = l := by
  intro l
  induction l with
  | nil => intro saw _ _ _; rfl
  | cons x rest ih =>
    intro saw hne hnd hsaw
    have hne2 : ∀ kv ∈ rest, kv ≠ "" := fun kv h => hne kv (List.mem_cons_of_mem _ h)
    rw [dedupEnvRev]
    split
    · rename_i hx
      rw [List.filterMap_cons_none hx] at hnd hsaw
      rw [if_neg (hne x (List.mem_cons_self _ _)), ih saw hne2 hnd hsaw]
    · rename_i kx hx
      rw [List.filterMap_cons_some hx] at hnd hsaw
      have hkx : kx ∉ saw := hsaw kx (List.mem_cons_self _ _)
      rw [if_neg hkx, ih (kx :: saw) hne2 (List.nodup_cons.1 hnd).2]
      intro k hk hmem
      rcases List.mem_cons.1 hmem with h | h
      · subst h; exact (List.nodup_cons.1 hnd).1 hk
      · exact hsaw k (List.mem_cons_of_mem _ hk) h

/-- The environment of the wrapped command: the last entry is `PGHOST=dir`, before it
come ambient entries in their order, none of them with the key `PGHOST`. -/
theorem dedupEnv_pghost (ambient : List String) (dir : String) :
    ∃ kept, dedupEnv (ambient ++ ["PGHOST=" ++ dir]) = kept ++ ["PGHOST=" ++ dir] ∧
      kept.Sublist ambient ∧ ∀ kv ∈ kept, envKey kv ≠ some "PGHOST" := by
  refine ⟨(dedupEnvRev ambient.reverse ["PGHOST"]).reverse, ?_, ?_, ?_⟩
  · unfold dedupEnv
    rw [List.reverse_append, List.reverse_singleton, List.singleton_append, dedupEnvRev,
      envKey_pghost]
    simp
  · have := (dedupEnvRev_sublist ambient.reverse ["PGHOST"]).reverse
    rwa [List.reverse_reverse] at this
  · intro kv hkv hk
    exact dedupEnvRev_unseen ambient.reverse ["PGHOST"] kv (List.mem_reverse.1 hkv) _ hk
      (List.mem_singleton_self _)

/-- An ambient environment without empty entries, without repeated keys and without a
`PGHOST` entry reaches the wrapped command unchanged, followed by `PGHOST=dir`. -/
theorem dedupEnv_clean (ambient : List String) (dir : String)
    (hne : ∀ kv ∈ ambient, kv ≠ "") (hnd : (ambient.filterMap envKey).Nodup)
    (hpg : ∀ kv ∈ ambient, envKey kv ≠ some "PGHOST") :
    dedupEnv (ambient ++ ["PGHOST=" ++ dir]) = ambient ++ ["PGHOST=" ++ dir] := by
  unfold dedupEnv
  rw [List.reverse_append, List.reverse_singleton, List.singleton_append, dedupEnvRev,
    envKey_pghost]
  simp only [List.not_mem_nil, if_false, List.reverse_cons]
  rw [dedupEnvRev_id ambient.reverse ["PGHOST"] (fun kv h => hne kv (List.mem_reverse.1 h))
    (by rw [List.filterMap_reverse]; exact List.nodup_reverse.2 hnd)
    (by
      intro k hk hmem
      rw [List.mem_singleton] at hmem
      subst hmem
      obtain ⟨kv, hkv, hkey⟩ := List.mem_filterMap.1 hk
      exact hpg kv (List.mem_reverse.1 hkv) hkey),
    List.reverse_reverse]

/-- Claim C9 as stated fails when the ambient environment has a `PGHOST` entry: the
wrapped command is started without it, so its environment is not the ambient one
unchanged followed by `PGHOST=` the scratch directory. -/
theorem run_command_ambient_pghost :
    (RunWithPostgresql ambientPghost ["psql"] 1).trace.filter Event.isFn =
        [.fn "/tmp/tmppg1"
          [.exec "psql" [] ["HOME=/root", "LANG=C", "PGHOST=/tmp/tmppg1"]]] ∧
      ["HOME=/root", "LANG=C", "PGHOST=/tmp/tmppg1"] ≠
        ambientPghost.environ ++ ["PGHOST=" ++ "/tmp/tmppg1"] := by
  decide

/-- Claim C9, amended: for a non-empty argument list, once the server is ready (at
iteration `n` of the loop) the wrapped command is `args[0]` with the arguments
`args[1:]`, run once.  Its `Env` is the ambient environment followed by the one entry
`PGHOST=` the scratch directory, and the process is started with that list after the
deduplication of `os/exec`: the last entry is `PGHOST=` the scratch directory, before
it come ambient entries in their order, none with the key `PGHOST`; when the ambient
environment has no empty entry, no repeated key and no `PGHOST` entry, it is the ambient
environment unchanged followed by that entry.  The run returns nil when the command
succeeds, and otherwise the non-nil error whose text is the command line as `%v` prints
it (the arguments separated by blanks, in square brackets), a colon, a blank and the
text of the cause. -/
theorem run_command (w : World) (args : List String) (fuel : Nat) (dir : String) (n : Nat)
    (hargs : args ≠ []) (hdir : w.mkdirTemp = .ok dir) (hinit : w.initdb = none)
    (hstart : w.start = none) (hfuel : n < fuel) (hreach : ∀ i, i < n → continues w i)
    (hrun : w.monitorProgress n = 0) (hp : w.probe n = none) :
    (RunWithPostgresql w args fuel).trace.filter Event.isFn =
        [.fn dir [.exec (args.head hargs) args.tail
          (dedupEnv (w.environ ++ ["PGHOST=" ++ dir]))]] ∧
      (∃ kept, dedupEnv (w.environ ++ ["PGHOST=" ++ dir]) = kept ++ ["PGHOST=" ++ dir] ∧
        kept.Sublist w.environ ∧ ∀ kv ∈ kept, envKey kv ≠ some "PGHOST") ∧
      ((∀ kv ∈ w.environ, kv ≠ "" ∧ envKey kv ≠ some "PGHOST") →
        (w.environ.filterMap envKey).Nodup →
        dedupEnv (w.environ ++ ["PGHOST=" ++ dir]) = w.environ ++ ["PGHOST=" ++ dir]) ∧
      (w.command args (dedupEnv (w.environ ++ ["PGHOST=" ++ dir])) = none →
        (RunWithPostgresql w args fuel).outcome = .returned none) ∧
      (∀ cause, w.command args (dedupEnv (w.environ ++ ["PGHOST=" ++ dir])) = some cause →
        (RunWithPostgresql w args fuel).outcome =
            .returned (some (.errorfV
              ("[" ++ " ".intercalate args ++ "]" ++ ": " ++ cause.text))) ∧
          (GoErr.errorfV ("[" ++ " ".intercalate args ++ "]" ++ ": " ++ cause.text)).text =
            "[" ++ " ".intercalate args ++ "]" ++ ": " ++ cause.text) := by
  obtain ⟨_, r2, _, r4, _⟩ :=
    run_ready_at w (runCommand w args) fuel dir hdir hinit hstart n hfuel hreach hrun hp
  unfold RunWithPostgresql
  rw [r2, r4]
  cases args with
  | nil => exact absurd rfl hargs
  | cons name rest =>
    refine ⟨?_, dedupEnv_pghost w.environ dir,
      fun h1 h2 => dedupEnv_clean w.environ dir (fun kv h => (h1 kv h).1) h2
        (fun kv h => (h1 kv h).2), ?_, ?_⟩
    · simp only [runCommand, List.singleton_append, List.head_cons, List.tail_cons]
      split <;> rfl
    · intro hc
      simp only [runCommand, List.singleton_append, hc]
      rfl
    · intro cause hc
      simp only [runCommand, List.singleton_append, hc]
      exact ⟨rfl, rfl⟩

theorem run_command_witness :
    ["psql", "-d", "postgres", "-c", "SELECT 1"] ≠ [] ∧
      (scripted [2]).mkdirTemp = .ok "/tmp/tmppg1" ∧ (scripted [2]).initdb = none ∧
      (scripted [2]).start = none ∧ 1 < 2 ∧ (∀ i, i < 1 → continues (scripted [2]) i) ∧
      (scripted [2]).monitorProgress 1 = 0 ∧ (scripted [2]).probe 1 = none ∧
      (RunWithPostgresql (scripted [2]) ["psql", "-d", "postgres", "-c", "SELECT 1"]
          2).trace.filter Event.isFn =
        [.fn "/tmp/tmppg1" [.exec "psql" ["-d", "postgres", "-c", "SELECT 1"]
          ["HOME=/root", "PGHOST=/tmp/tmppg1"]]] ∧
      (RunWithPostgresql (scripted [2]) ["psql", "-d", "postgres", "-c", "SELECT 1"] 2).outcome =
        .returned none ∧
      commandFails.command ["false"] ["HOME=/root", "PGHOST=/tmp/tmppg1"] =
        some (.exitError 1 "exit status 1") ∧
      (RunWithPostgresql commandFails ["false"] 1).outcome =
        .returned (some (.errorfV "[false]: exit status 1")) ∧
      (GoErr.errorfV "[false]: exit status 1").text = "[false]: exit status 1" :=
  have hreach : ∀ i, i < 1 → continues (scripted [2]) i := by
    intro i hi
    interval_cases i
    exact ⟨rfl, _, rfl, Or.inr (Or.inr rfl)⟩
  have hnone : ∀ i, i < 0 → continues commandFails i := fun i hi => absurd hi (by omega)
  ⟨by decide, rfl, rfl, rfl, by decide, hreach, rfl, rfl,
    (run_command (scripted [2]) ["psql", "-d", "postgres", "-c", "SELECT 1"] 2 "/tmp/tmppg1" 1
      (by decide) rfl rfl rfl (by decide) hreach rfl rfl).1.trans (by decide),
    (run_command (scripted [2]) ["psql", "-d", "postgres", "-c", "SELECT 1"] 2 "/tmp/tmppg1" 1
      (by decide) rfl rfl rfl (by decide) hreach rfl rfl).2.2.2.1 (by decide),
    by decide,
    ((run_command commandFails ["false"] 1 "/tmp/tmppg1" 0 (by decide) rfl rfl rfl
      (by decide) hnone rfl rfl).2.2.2.2 (.exitError 1 "exit status 1") (by decide)).1.trans
      (by decide),
    rfl⟩

end Tmppg
